import Mathlib

/-
Verification of the row-to-hierarchy reducer and report renderer of
GenRoadmapReport.py / GenRoadmapReport_V2.py.

The two scripts contain an identical `process_data` function; it is embedded
once below.  Python dicts preserve insertion order and assignment to an
existing key replaces the value in place, so every dict is embedded as an
association list (`SDict`) with `upsertA` as the assignment operation.
Python `logging.warning` calls are modelled as a list of warning strings
emitted alongside the state.  Statements in `process_data` that can raise
`KeyError` (the nested subscript chains in the Goal/Initiative/Lead branches)
are embedded as `Option`-returning lookups, so the whole reducer returns
`Option`; totality over all inputs is then a theorem, not an assumption.
-/

set_option maxHeartbeats 1000000

/-- Association list keyed by strings, the embedding of a Python `dict`
(insertion ordered). -/
abbrev SDict (α : Type) := List (String × α)

/-- `d.get(k)` / `k in d`: first (and by construction only) binding of `k`. -/
def lookupA {α : Type} : SDict α → String → Option α
  | [], _ => none
  | (k', v) :: rest, k => if k' = k then some v else lookupA rest k

/-- `d[k] = v`: replace in place if the key is present (keeping its position),
otherwise append at the end.  This is exactly Python dict assignment. -/
def upsertA {α : Type} (k : String) (v : α) : SDict α → SDict α
  | [] => [(k, v)]
  | (k', v') :: rest => if k' = k then (k, v) :: rest else (k', v') :: upsertA k v rest

@[simp] theorem lookupA_nil {α : Type} (k : String) : lookupA ([] : SDict α) k = none := rfl

theorem lookupA_upsertA {α : Type} (l : SDict α) (k k' : String) (v : α) :
    lookupA (upsertA k v l) k' = if k = k' then some v else lookupA l k' := by
  induction l with
  | nil =>
    by_cases h : k = k' <;> simp [upsertA, lookupA, h]
  | cons p rest ih =>
    obtain ⟨k₀, v₀⟩ := p
    by_cases h0 : k₀ = k
    · subst h0
      by_cases h : k₀ = k' <;> simp [upsertA, lookupA, h]
    · by_cases h : k₀ = k'
      · subst h
        have hne : ¬ k = k₀ := fun hh => h0 hh.symm
        simp [upsertA, lookupA, h0, hne, ih]
      · simp [upsertA, lookupA, h0, h, ih]

/-- One input row (one Excel record); all columns are stringified with missing
values coerced to `""` before reaching `process_data`. -/
structure Row where
  issue_type : String
  key : String
  summary : String
  hebrew_summary : String
  status : String
  description : String
  start_date : String
  due_date : String
deriving DecidableEq

structure LeadNode where
  summary : String
  hebrew_summary : String
  description : String
deriving DecidableEq

structure InitNode where
  summary : String
  hebrew_summary : String
  description : String
  start_date : String
  due_date : String
  leads : SDict LeadNode
deriving DecidableEq

structure GoalNode where
  summary : String
  hebrew_summary : String
  description : String
  statuses : SDict (SDict InitNode)
deriving DecidableEq

structure ThemeNode where
  summary : String
  hebrew_summary : String
  goals : SDict GoalNode
deriving DecidableEq

/-- The fresh theme value assigned by the `Theme` branch of `process_data`. -/
def mkThemeNode (r : Row) : ThemeNode := ⟨r.summary, r.hebrew_summary, []⟩

/-- The fresh goal value assigned by the `Goal` branch of `process_data`. -/
def mkGoalNode (r : Row) : GoalNode := ⟨r.summary, r.hebrew_summary, r.description, []⟩

/-- The fresh initiative value assigned by the `Initiative` branch. -/
def mkInitNode (r : Row) : InitNode :=
  ⟨r.summary, r.hebrew_summary, r.description, r.start_date, r.due_date, []⟩

/-- The fresh lead value assigned by the `Lead` branch. -/
def mkLeadNode (r : Row) : LeadNode := ⟨r.summary, r.hebrew_summary, r.description⟩

def goalWarning (k : String) : String :=
  "Goal '" ++ k ++ "' found without a current theme."

def initiativeWarning (k : String) : String :=
  "Initiative '" ++ k ++ "' found without a current theme and goal."

def leadWarning (k : String) : String :=
  "Lead '" ++ k ++ "' found without a current theme, goal, status, and initiative."

def unknownWarning (it k : String) : String :=
  "Unknown issue type '" ++ it ++ "' for key '" ++ k ++ "'."

/-- The end sentinel: an untyped row whose summary is the marker string. -/
def isSentinel (r : Row) : Prop := r.issue_type = "" ∧ r.summary = "Not an issue"

instance (r : Row) : Decidable (isSentinel r) := by
  unfold isSentinel; infer_instance

/-- The mutable locals of `process_data`: the tree being built, the four
cursors, and whether the `break` for the end sentinel has run. -/
structure RState where
  tree : SDict ThemeNode
  current_theme : Option String
  current_goal : Option String
  current_status : Option String
  current_initiative : Option String
  stopped : Bool
deriving DecidableEq

def initState : RState := ⟨[], none, none, none, none, false⟩

/-- Python truthiness of a `None`-or-string variable (`if current_theme:`):
`None` and `''` are falsy. -/
def truthy : Option String → Bool
  | none => false
  | some s => !(s == "")

/-- The assignments of the `Theme` branch: open a fresh theme under the row's
key, reset the three lower cursors. -/
def themeStep (s : RState) (r : Row) : RState :=
  { s with
    tree := upsertA r.key (mkThemeNode r) s.tree
    current_theme := some r.key
    current_goal := none
    current_status := none
    current_initiative := none }

/-- The assignments of the `Goal` branch once the current theme `k` has been
resolved to its node `tn`. -/
def goalStep (s : RState) (r : Row) (k : String) (tn : ThemeNode) : RState :=
  { s with
    tree := upsertA k { tn with goals := upsertA r.key (mkGoalNode r) tn.goals } s.tree
    current_goal := some r.key
    current_status := none
    current_initiative := none }

/-- The assignments of the `Initiative` branch: create the status group if
absent, assign the fresh initiative under it, move both lower cursors. -/
def initStep (s : RState) (r : Row) (k g : String) (tn : ThemeNode) (gn : GoalNode) : RState :=
  let sm := (lookupA gn.statuses r.status).getD []
  let gn2 := { gn with statuses := upsertA r.status (upsertA r.key (mkInitNode r) sm) gn.statuses }
  let tn2 := { tn with goals := upsertA g gn2 tn.goals }
  { s with
    tree := upsertA k tn2 s.tree
    current_status := some r.status
    current_initiative := some r.key }

/-- The assignment of the `Lead` branch: attach the fresh lead to the open
initiative, cursors unchanged. -/
def leadStep (s : RState) (r : Row) (k g st i : String) (tn : ThemeNode) (gn : GoalNode)
    (sm : SDict InitNode) (n : InitNode) : RState :=
  let n2 := { n with leads := upsertA r.key (mkLeadNode r) n.leads }
  let gn2 := { gn with statuses := upsertA st (upsertA i n2 sm) gn.statuses }
  let tn2 := { tn with goals := upsertA g gn2 tn.goals }
  { s with tree := upsertA k tn2 s.tree }

/-- One iteration of the `for row in data` loop of `process_data`.  Returns
`none` where the Python code would raise `KeyError` on a subscript, and
otherwise the updated state together with the warnings logged by this row.
A state with `stopped = true` models control having passed the `break`. -/
def step (s : RState) (r : Row) : Option (RState × List String) :=
  if s.stopped then some (s, []) else
  if r.issue_type = "Theme" then
    some (themeStep s r, [])
  else if r.issue_type = "Goal" then
    match s.current_theme with
    | none => some (s, [goalWarning r.key])
    | some k =>
      if k = "" then some (s, [goalWarning r.key])
      else
        match lookupA s.tree k with
        | none => none
        | some tn => some (goalStep s r k tn, [])
  else if r.issue_type = "Initiative" then
    match s.current_theme, s.current_goal with
    | some k, some g =>
      if k = "" ∨ g = "" then some (s, [initiativeWarning r.key])
      else
        match lookupA s.tree k with
        | none => none
        | some tn =>
          match lookupA tn.goals g with
          | none => none
          | some gn => some (initStep s r k g tn gn, [])
    | _, _ => some (s, [initiativeWarning r.key])
  else if r.issue_type = "Lead" then
    match s.current_theme, s.current_goal, s.current_status, s.current_initiative with
    | some k, some g, some st, some i =>
      if k = "" ∨ g = "" ∨ st = "" ∨ i = "" then some (s, [leadWarning r.key])
      else
        match lookupA s.tree k with
        | none => none
        | some tn =>
          match lookupA tn.goals g with
          | none => none
          | some gn =>
            match lookupA gn.statuses st with
            | none => none
            | some sm =>
              match lookupA sm i with
              | none => none
              | some n => some (leadStep s r k g st i tn gn sm n, [])
    | _, _, _, _ => some (s, [leadWarning r.key])
  else if r.issue_type = "" then
    if r.summary = "Not an issue" then some ({ s with stopped := true }, [])
    else some (s, [])
  else some (s, [unknownWarning r.issue_type r.key])

/-- The whole `for` loop, from an arbitrary starting state, accumulating the
warnings of every processed row in order. -/
def runFrom (s : RState) : List Row → Option (RState × List String)
  | [] => some (s, [])
  | r :: rest =>
    match step s r with
    | none => none
    | some (s₁, w₁) =>
      match runFrom s₁ rest with
      | none => none
      | some (s₂, w₂) => some (s₂, w₁ ++ w₂)

/-- `process_data` (identical in GenRoadmapReport.py and
GenRoadmapReport_V2.py): the hierarchy together with the warnings logged,
or `none` where Python would raise. -/
def process_data (rows : List Row) : Option (SDict ThemeNode × List String) :=
  (runFrom initState rows).map (fun p => (p.1.tree, p.2))

/-
Renderer embedding.  The document side of the scripts is incidental plumbing
(docx styling, fonts, colours); what is specified is the ordered sequence of
content blocks.  Each heading-plus-bilingual-paragraph group and each table
row is embedded as one `Block`, mirroring the spec's abstract render
instructions while taking every field's content from the code.
-/

/-- Leading run of decimal digits of a character list, with the rest. -/
def takeDigits : List Char → List Char × List Char
  | [] => ([], [])
  | c :: rest =>
    if c.isDigit then
      let p := takeDigits rest
      (c :: p.1, p.2)
    else ([], c :: rest)

/-- Leading run of whitespace (the literal blank in a Python strptime format
matches one or more whitespace characters). -/
def takeSpaces : List Char → List Char × List Char
  | [] => ([], [])
  | c :: rest =>
    if c.isWhitespace then
      let p := takeSpaces rest
      (c :: p.1, p.2)
    else ([], c :: rest)

def digitsVal (ds : List Char) : Nat := ds.foldl (fun n c => 10 * n + (c.toNat - 48)) 0

/-- A 1-or-2-digit strptime field with its admissible value range (the union
of the alternatives in the pattern Python compiles for `%m`, `%d`, `%H`,
`%M`, `%S`). -/
def fieldOk (ds : List Char) (lo hi : Nat) : Bool :=
  decide (1 ≤ ds.length) && decide (ds.length ≤ 2) &&
  decide (lo ≤ digitsVal ds) && decide (digitsVal ds ≤ hi)

def isLeap (y : Nat) : Bool := y % 4 == 0 && (y % 100 != 0 || y % 400 == 0)

def daysInMonth (y m : Nat) : Nat :=
  if m = 2 then (if isLeap y then 29 else 28)
  else if m = 4 ∨ m = 6 ∨ m = 9 ∨ m = 11 then 30
  else 31

structure Timestamp where
  year : Nat
  month : Nat
  day : Nat
  hour : Nat
  minute : Nat
  second : Nat
deriving DecidableEq

/-- `datetime.strptime(date_str, "%Y-%m-%d %H:%M:%S")`, as `none` on
`ValueError`: exactly four year digits (year at least 1, `datetime.MINYEAR`),
1-2 digit fields in range, the whole string consumed, the day valid for the
month (leap years per the Gregorian rule), seconds at most 59 (the
constructor rejects the leap seconds the regex admits). -/
def parseTimestamp (s : String) : Option Timestamp :=
  let p0 := takeDigits s.toList
  match p0.2 with
  | '-' :: r2 =>
    let p1 := takeDigits r2
    match p1.2 with
    | '-' :: r4 =>
      let p2 := takeDigits r4
      let ws := takeSpaces p2.2
      if ws.1.isEmpty then none else
      let p3 := takeDigits ws.2
      match p3.2 with
      | ':' :: r8 =>
        let p4 := takeDigits r8
        match p4.2 with
        | ':' :: r10 =>
          let p5 := takeDigits r10
          if p5.2.isEmpty
              && decide (p0.1.length = 4) && decide (1 ≤ digitsVal p0.1)
              && fieldOk p1.1 1 12 && fieldOk p2.1 1 31
              && fieldOk p3.1 0 23 && fieldOk p4.1 0 59 && fieldOk p5.1 0 59
              && decide (digitsVal p2.1 ≤ daysInMonth (digitsVal p0.1) (digitsVal p1.1))
          then some ⟨digitsVal p0.1, digitsVal p1.1, digitsVal p2.1,
                     digitsVal p3.1, digitsVal p4.1, digitsVal p5.1⟩
          else none
        | _ => none
      | _ => none
    | _ => none
  | _ => none

def monthAbbr : Nat → String
  | 1 => "Jan"
  | 2 => "Feb"
  | 3 => "Mar"
  | 4 => "Apr"
  | 5 => "May"
  | 6 => "Jun"
  | 7 => "Jul"
  | 8 => "Aug"
  | 9 => "Sep"
  | 10 => "Oct"
  | 11 => "Nov"
  | 12 => "Dec"
  | _ => ""

def pad2 (n : Nat) : String := if n < 10 then "0" ++ toString n else toString n

/-- `format_date` of GenRoadmapReport.py: reformat on successful parse
(`strftime("%d %b %Y")`), return the original string on `ValueError`. -/
def format_date (date_str : String) : String :=
  match parseTimestamp date_str with
  | some t => pad2 t.day ++ " " ++ monthAbbr t.month ++ " " ++ toString t.year
  | none => date_str

/-- `format_hebrew_text`: wrap with RTL embedding control characters. -/
def format_hebrew_text (text : String) : String :=
  "\u202B" ++ text ++ "\u202C"

/-- One rendered content group: a theme heading (with its bilingual
paragraph), a goal heading, a status heading (with its table intro), or one
initiative table row. -/
inductive Block where
  | themeHeading (summary key hebrew : String)
  | goalHeading (summary key hebrew : String)
  | statusHeading (status : String)
  | initiativeRow (key summary hebrew startDisp dueDisp description : String)
      (leads : List (String × String))
deriving DecidableEq

/-- `add_initiative_to_table` of GenRoadmapReport.py: dates go through
`format_date` when the raw field is non-empty (truthy) and render as
`'Unknown'` when it is empty. -/
def add_initiative_to_table (k : String) (n : InitNode) : Block :=
  Block.initiativeRow k n.summary (format_hebrew_text n.hebrew_summary)
    (if n.start_date = "" then "Unknown" else format_date n.start_date)
    (if n.due_date = "" then "Unknown" else format_date n.due_date)
    (format_hebrew_text n.description)
    (n.leads.map (fun p => (format_hebrew_text p.2.summary, p.1)))

/-- `add_status_table`: the status heading followed by one row per
initiative, in dict order. -/
def add_status_table (st : String) (sm : SDict InitNode) : List Block :=
  Block.statusHeading st :: sm.map (fun p => add_initiative_to_table p.1 p.2)

/-- `add_theme_goal_content`: emit the theme heading if not yet printed, the
goal heading if not yet printed, then the status table; both printed flags
are returned `true`. -/
def add_theme_goal_content (tk : String) (tn : ThemeNode) (gk : String) (gn : GoalNode)
    (st : String) (sm : SDict InitNode) (tp gp : Bool) : List Block × Bool × Bool :=
  ((if tp then [] else [Block.themeHeading tn.summary tk (format_hebrew_text tn.hebrew_summary)]) ++
   (if gp then [] else [Block.goalHeading gn.summary gk (format_hebrew_text gn.hebrew_summary)]) ++
   add_status_table st sm, true, true)

/-- The `status_order` list of `add_content`. -/
def statusOrder (include_todo : Bool) : List String :=
  ["Done", "In Progress", "Next"] ++ (if include_todo then ["To Do"] else [])

/-- The `for status in status_order` loop of `add_content` for one goal:
a status renders only when present and non-empty. -/
def renderStatuses (tk : String) (tn : ThemeNode) (gk : String) (gn : GoalNode)
    (tp gp : Bool) : List String → List Block × Bool × Bool
  | [] => ([], tp, gp)
  | st :: rest =>
    match lookupA gn.statuses st with
    | some sm =>
      if sm.isEmpty then renderStatuses tk tn gk gn tp gp rest
      else
        let r1 := add_theme_goal_content tk tn gk gn st sm tp gp
        let r2 := renderStatuses tk tn gk gn r1.2.1 r1.2.2 rest
        (r1.1 ++ r2.1, r2.2)
    | none => renderStatuses tk tn gk gn tp gp rest

/-- The `for goal_key, goal_data` loop: `goal_printed` starts `False` for
each goal, `theme_printed` threads across goals. -/
def renderGoals (tk : String) (tn : ThemeNode) (order : List String) (tp : Bool) :
    SDict GoalNode → List Block × Bool
  | [] => ([], tp)
  | (gk, gn) :: rest =>
    let r1 := renderStatuses tk tn gk gn tp false order
    let r2 := renderGoals tk tn order r1.2.1 rest
    (r1.1 ++ r2.1, r2.2)

/-- The `for theme_key, theme_data` loop: `theme_printed` starts `False` for
each theme. -/
def renderThemes (order : List String) : SDict ThemeNode → List Block
  | [] => []
  | (tk, tn) :: rest => (renderGoals tk tn order false tn.goals).1 ++ renderThemes order rest

/-- `add_content` of GenRoadmapReport.py (the traversal logic is identical in
GenRoadmapReport_V2.py). -/
def add_content (structured_data : SDict ThemeNode) (include_todo : Bool) : List Block :=
  renderThemes (statusOrder include_todo) structured_data

/-- Python `str.split()` with no argument: whitespace-delimited tokens,
empty tokens discarded. -/
def pySplitAux : List Char → List Char → List (List Char)
  | [], acc => if acc.isEmpty then [] else [acc.reverse]
  | c :: rest, acc =>
    if c.isWhitespace then
      if acc.isEmpty then pySplitAux rest [] else acc.reverse :: pySplitAux rest []
    else pySplitAux rest (c :: acc)

def pySplit (s : String) : List String :=
  (pySplitAux s.toList []).map (fun cs => String.mk cs)

/-- The date expression of `add_initiative_to_table` in GenRoadmapReport_V2.py:
`initiative_data['start_date'].split()[0] if initiative_data['start_date']
else 'Unknown'`.  `none` models the `IndexError` raised by `[0]` when the
non-empty string is all whitespace. -/
def dateFieldV2 (raw : String) : Option String :=
  if raw = "" then some "Unknown" else (pySplit raw).head?

/-- `add_initiative_to_table` of GenRoadmapReport_V2.py (its description and
lead summaries are not RTL-wrapped there); `none` models `IndexError` from
a date field. -/
def add_initiative_to_table_V2 (k : String) (n : InitNode) : Option Block :=
  match dateFieldV2 n.start_date, dateFieldV2 n.due_date with
  | some sd, some dd =>
    some (Block.initiativeRow k n.summary (format_hebrew_text n.hebrew_summary) sd dd
      n.description (n.leads.map (fun p => (p.2.summary, p.1))))
  | _, _ => none

/-
Equation lemmas for the branches of `step`.
-/

theorem step_stopped (s : RState) (r : Row) (h : s.stopped = true) :
    step s r = some (s, []) := by
  simp [step, h]

theorem step_theme (s : RState) (r : Row) (hs : s.stopped = false)
    (h : r.issue_type = "Theme") :
    step s r = some (themeStep s r, []) := by
  simp [step, hs, h]

theorem step_goal_skip (s : RState) (r : Row) (hs : s.stopped = false)
    (h : r.issue_type = "Goal") (ht : truthy s.current_theme = false) :
    step s r = some (s, [goalWarning r.key]) := by
  cases hct : s.current_theme with
  | none => simp [step, hs, h, hct]
  | some k =>
    rw [hct] at ht
    have hk : k = "" := by simpa [truthy] using ht
    subst hk
    simp [step, hs, h, hct]

theorem step_goal_ok (s : RState) (r : Row) (hs : s.stopped = false)
    (h : r.issue_type = "Goal") (k : String) (hct : s.current_theme = some k)
    (hk : k ≠ "") (tn : ThemeNode) (htn : lookupA s.tree k = some tn) :
    step s r = some (goalStep s r k tn, []) := by
  simp [step, hs, h, hct, hk, htn]

theorem step_init_skip (s : RState) (r : Row) (hs : s.stopped = false)
    (h : r.issue_type = "Initiative")
    (ht : (truthy s.current_theme && truthy s.current_goal) = false) :
    step s r = some (s, [initiativeWarning r.key]) := by
  cases hct : s.current_theme with
  | none => cases hcg : s.current_goal <;> simp [step, hs, h, hct, hcg]
  | some k =>
    cases hcg : s.current_goal with
    | none => simp [step, hs, h, hct, hcg]
    | some g =>
      rw [hct, hcg] at ht
      by_cases hk : k = ""
      · simp [step, hs, h, hct, hcg, hk]
      · by_cases hg : g = ""
        · simp [step, hs, h, hct, hcg, hg]
        · simp [truthy, hk, hg] at ht

theorem step_init_ok (s : RState) (r : Row) (hs : s.stopped = false)
    (h : r.issue_type = "Initiative") (k g : String)
    (hct : s.current_theme = some k) (hcg : s.current_goal = some g)
    (hk : k ≠ "") (hg : g ≠ "") (tn : ThemeNode) (htn : lookupA s.tree k = some tn)
    (gn : GoalNode) (hgn : lookupA tn.goals g = some gn) :
    step s r = some (initStep s r k g tn gn, []) := by
  simp [step, hs, h, hct, hcg, hk, hg, htn, hgn]

theorem step_lead_skip (s : RState) (r : Row) (hs : s.stopped = false)
    (h : r.issue_type = "Lead")
    (ht : (truthy s.current_theme && truthy s.current_goal &&
           truthy s.current_status && truthy s.current_initiative) = false) :
    step s r = some (s, [leadWarning r.key]) := by
  cases hct : s.current_theme with
  | none =>
    cases hcg : s.current_goal <;> cases hcs : s.current_status <;>
      cases hci : s.current_initiative <;> simp [step, hs, h, hct, hcg, hcs, hci]
  | some k =>
    cases hcg : s.current_goal with
    | none =>
      cases hcs : s.current_status <;> cases hci : s.current_initiative <;>
        simp [step, hs, h, hct, hcg, hcs, hci]
    | some g =>
      cases hcs : s.current_status with
      | none => cases hci : s.current_initiative <;> simp [step, hs, h, hct, hcg, hcs, hci]
      | some st =>
        cases hci : s.current_initiative with
        | none => simp [step, hs, h, hct, hcg, hcs, hci]
        | some i =>
          rw [hct, hcg, hcs, hci] at ht
          by_cases hk : k = ""
          · simp [step, hs, h, hct, hcg, hcs, hci, hk]
          · by_cases hg : g = ""
            · simp [step, hs, h, hct, hcg, hcs, hci, hg]
            · by_cases hst : st = ""
              · simp [step, hs, h, hct, hcg, hcs, hci, hst]
              · by_cases hi : i = ""
                · simp [step, hs, h, hct, hcg, hcs, hci, hi]
                · simp [truthy, hk, hg, hst, hi] at ht

theorem step_lead_ok (s : RState) (r : Row) (hs : s.stopped = false)
    (h : r.issue_type = "Lead") (k g st i : String)
    (hct : s.current_theme = some k) (hcg : s.current_goal = some g)
    (hcs : s.current_status = some st) (hci : s.current_initiative = some i)
    (hk : k ≠ "") (hg : g ≠ "") (hst : st ≠ "") (hi : i ≠ "")
    (tn : ThemeNode) (htn : lookupA s.tree k = some tn)
    (gn : GoalNode) (hgn : lookupA tn.goals g = some gn)
    (sm : SDict InitNode) (hsm : lookupA gn.statuses st = some sm)
    (n : InitNode) (hn : lookupA sm i = some n) :
    step s r = some (leadStep s r k g st i tn gn sm n, []) := by
  simp [step, hs, h, hct, hcg, hcs, hci, hk, hg, hst, hi, htn, hgn, hsm, hn]

theorem step_sentinel (s : RState) (r : Row) (hs : s.stopped = false)
    (h : r.issue_type = "") (hm : r.summary = "Not an issue") :
    step s r = some ({ s with stopped := true }, []) := by
  simp [step, hs, h, hm]

theorem step_empty (s : RState) (r : Row) (hs : s.stopped = false)
    (h : r.issue_type = "") (hm : r.summary ≠ "Not an issue") :
    step s r = some (s, []) := by
  simp [step, hs, h, hm]

theorem step_unknown (s : RState) (r : Row) (hs : s.stopped = false)
    (h1 : r.issue_type ≠ "Theme") (h2 : r.issue_type ≠ "Goal")
    (h3 : r.issue_type ≠ "Initiative") (h4 : r.issue_type ≠ "Lead")
    (h5 : r.issue_type ≠ "") :
    step s r = some (s, [unknownWarning r.issue_type r.key]) := by
  simp [step, hs, h1, h2, h3, h4, h5]


theorem lookupA_upsertA_self {α : Type} (l : SDict α) (k : String) (v : α) :
    lookupA (upsertA k v l) k = some v := by
  simp [lookupA_upsertA]

theorem runFrom_nil (s : RState) : runFrom s [] = some (s, []) := rfl

theorem runFrom_cons (s : RState) (r : Row) (l : List Row) :
    runFrom s (r :: l) =
      (step s r).bind (fun p => (runFrom p.1 l).map (fun q => (q.1, p.2 ++ q.2))) := by
  cases h : step s r with
  | none => simp [runFrom, h]
  | some p =>
    obtain ⟨s₁, w₁⟩ := p
    cases h2 : runFrom s₁ l with
    | none => simp [runFrom, h, h2]
    | some q =>
      obtain ⟨s₂, w₂⟩ := q
      simp [runFrom, h, h2]

theorem runFrom_append (xs ys : List Row) (s : RState) :
    runFrom s (xs ++ ys) =
      (runFrom s xs).bind (fun p => (runFrom p.1 ys).map (fun q => (q.1, p.2 ++ q.2))) := by
  induction xs generalizing s with
  | nil =>
    cases h : runFrom s ys <;> simp [runFrom, h]
  | cons r xs ih =>
    simp only [List.cons_append, runFrom_cons]
    cases h : step s r with
    | none => simp
    | some p =>
      obtain ⟨s₁, w₁⟩ := p
      simp only [Option.some_bind]
      rw [ih s₁]
      cases h3 : runFrom s₁ xs with
      | none => simp
      | some p2 =>
        obtain ⟨s₂, w₂⟩ := p2
        cases h4 : runFrom s₂ ys with
        | none => simp [h4]
        | some q =>
          obtain ⟨s₃, w₃⟩ := q
          simp [h4, List.append_assoc]

theorem runFrom_stopped (l : List Row) (s : RState) (h : s.stopped = true) :
    runFrom s l = some (s, []) := by
  induction l with
  | nil => rfl
  | cons r rest ih => simp [runFrom, step_stopped s r h, ih]

/-- The reducer's inductive invariant: whenever a cursor is set, the path it
points at exists in the tree being built. -/
def RInv (s : RState) : Prop :=
  (∀ k, s.current_theme = some k → ∃ tn, lookupA s.tree k = some tn) ∧
  (∀ k g tn, s.current_theme = some k → s.current_goal = some g →
      lookupA s.tree k = some tn → ∃ gn, lookupA tn.goals g = some gn) ∧
  (∀ k g st i tn gn, s.current_theme = some k → s.current_goal = some g →
      s.current_status = some st → s.current_initiative = some i →
      lookupA s.tree k = some tn → lookupA tn.goals g = some gn →
      ∃ sm n, lookupA gn.statuses st = some sm ∧ lookupA sm i = some n)

theorem RInv_init : RInv initState := by
  refine ⟨?_, ?_, ?_⟩
  · intro k hk; simp [initState] at hk
  · intro k g tn hk hg htn; simp [initState] at hk
  · intro k g st i tn gn hk hg hst hi htn hgn; simp [initState] at hk

theorem step_total (s : RState) (r : Row) (hRI : RInv s) :
    ∃ s' w, step s r = some (s', w) ∧ RInv s' := by
  by_cases hs0 : s.stopped = true
  · exact ⟨s, [], step_stopped s r hs0, hRI⟩
  have hs : s.stopped = false := by simpa using hs0
  by_cases h1 : r.issue_type = "Theme"
  · refine ⟨themeStep s r, [], step_theme s r hs h1, ?_, ?_, ?_⟩
    · intro k hk
      simp only [themeStep] at hk ⊢
      have : r.key = k := Option.some_inj.mp hk
      subst this
      exact ⟨_, lookupA_upsertA_self _ _ _⟩
    · intro k g tn hk hg htn
      simp [themeStep] at hg
    · intro k g st i tn gn hk hg hst hi htn hgn
      simp [themeStep] at hg
  by_cases h2 : r.issue_type = "Goal"
  · cases hct : s.current_theme with
    | none => exact ⟨s, _, step_goal_skip s r hs h2 (by simp [truthy, hct]), hRI⟩
    | some k =>
      by_cases hk : k = ""
      · exact ⟨s, _, step_goal_skip s r hs h2 (by simp [truthy, hct, hk]), hRI⟩
      · obtain ⟨tn, htn⟩ := hRI.1 k hct
        refine ⟨goalStep s r k tn, [], step_goal_ok s r hs h2 k hct hk tn htn, ?_, ?_, ?_⟩
        · intro k' hk'
          simp only [goalStep] at hk' ⊢
          rw [hct] at hk'
          have : k = k' := Option.some_inj.mp hk'
          subst this
          exact ⟨_, lookupA_upsertA_self _ _ _⟩
        · intro k' g tn' hk' hg htn'
          simp only [goalStep] at hk' hg htn' ⊢
          rw [hct] at hk'
          have hkk : k = k' := Option.some_inj.mp hk'
          subst hkk
          have hgg : r.key = g := Option.some_inj.mp hg
          subst hgg
          rw [lookupA_upsertA] at htn'
          simp at htn'
          subst htn'
          exact ⟨_, lookupA_upsertA_self _ _ _⟩
        · intro k' g st i tn' gn hk' hg hst hi htn' hgn
          simp [goalStep] at hst
  by_cases h3 : r.issue_type = "Initiative"
  · cases hct : s.current_theme with
    | none =>
      refine ⟨s, _, step_init_skip s r hs h3 ?_, hRI⟩
      simp [truthy, hct]
    | some k =>
      cases hcg : s.current_goal with
      | none =>
        refine ⟨s, _, step_init_skip s r hs h3 ?_, hRI⟩
        simp [truthy, hcg]
      | some g =>
        by_cases hk : k = ""
        · exact ⟨s, _, step_init_skip s r hs h3 (by simp [truthy, hct, hk]), hRI⟩
        by_cases hg : g = ""
        · exact ⟨s, _, step_init_skip s r hs h3 (by simp [truthy, hcg, hg]), hRI⟩
        obtain ⟨tn, htn⟩ := hRI.1 k hct
        obtain ⟨gn, hgn⟩ := hRI.2.1 k g tn hct hcg htn
        refine ⟨initStep s r k g tn gn, [],
          step_init_ok s r hs h3 k g hct hcg hk hg tn htn gn hgn, ?_, ?_, ?_⟩
        · intro k' hk'
          simp only [initStep] at hk' ⊢
          rw [hct] at hk'
          have : k = k' := Option.some_inj.mp hk'
          subst this
          exact ⟨_, lookupA_upsertA_self _ _ _⟩
        · intro k' g' tn' hk' hg' htn'
          simp only [initStep] at hk' hg' htn' ⊢
          rw [hct] at hk'
          have hkk : k = k' := Option.some_inj.mp hk'
          subst hkk
          rw [hcg] at hg'
          have hgg : g = g' := Option.some_inj.mp hg'
          subst hgg
          rw [lookupA_upsertA] at htn'
          simp at htn'
          subst htn'
          exact ⟨_, lookupA_upsertA_self _ _ _⟩
        · intro k' g' st i tn' gn' hk' hg' hst hi htn' hgn'
          simp only [initStep] at hk' hg' hst hi htn' hgn' ⊢
          rw [hct] at hk'
          have hkk : k = k' := Option.some_inj.mp hk'
          subst hkk
          rw [hcg] at hg'
          have hgg : g = g' := Option.some_inj.mp hg'
          subst hgg
          have hstst : r.status = st := Option.some_inj.mp hst
          subst hstst
          have hii : r.key = i := Option.some_inj.mp hi
          subst hii
          rw [lookupA_upsertA] at htn'
          simp at htn'
          subst htn'
          rw [lookupA_upsertA] at hgn'
          simp at hgn'
          subst hgn'
          exact ⟨_, _, lookupA_upsertA_self _ _ _, lookupA_upsertA_self _ _ _⟩
  by_cases h4 : r.issue_type = "Lead"
  · cases hct : s.current_theme with
    | none =>
      refine ⟨s, _, step_lead_skip s r hs h4 ?_, hRI⟩
      simp [truthy, hct]
    | some k =>
      cases hcg : s.current_goal with
      | none =>
        refine ⟨s, _, step_lead_skip s r hs h4 ?_, hRI⟩
        simp [truthy, hcg]
      | some g =>
        cases hcs : s.current_status with
        | none =>
          refine ⟨s, _, step_lead_skip s r hs h4 ?_, hRI⟩
          simp [truthy, hcs]
        | some st =>
          cases hci : s.current_initiative with
          | none =>
            refine ⟨s, _, step_lead_skip s r hs h4 ?_, hRI⟩
            simp [truthy, hci]
          | some i =>
            by_cases hk : k = ""
            · exact ⟨s, _, step_lead_skip s r hs h4 (by simp [truthy, hct, hk]), hRI⟩
            by_cases hg : g = ""
            · exact ⟨s, _, step_lead_skip s r hs h4 (by simp [truthy, hcg, hg]), hRI⟩
            by_cases hst : st = ""
            · exact ⟨s, _, step_lead_skip s r hs h4 (by simp [truthy, hcs, hst]), hRI⟩
            by_cases hi : i = ""
            · exact ⟨s, _, step_lead_skip s r hs h4 (by simp [truthy, hci, hi]), hRI⟩
            obtain ⟨tn, htn⟩ := hRI.1 k hct
            obtain ⟨gn, hgn⟩ := hRI.2.1 k g tn hct hcg htn
            obtain ⟨sm, n, hsm, hn⟩ := hRI.2.2 k g st i tn gn hct hcg hcs hci htn hgn
            refine ⟨leadStep s r k g st i tn gn sm n, [],
              step_lead_ok s r hs h4 k g st i hct hcg hcs hci hk hg hst hi tn htn gn hgn sm hsm n hn,
              ?_, ?_, ?_⟩
            · intro k' hk'
              simp only [leadStep] at hk' ⊢
              rw [hct] at hk'
              have : k = k' := Option.some_inj.mp hk'
              subst this
              exact ⟨_, lookupA_upsertA_self _ _ _⟩
            · intro k' g' tn' hk' hg' htn'
              simp only [leadStep] at hk' hg' htn' ⊢
              rw [hct] at hk'
              have hkk : k = k' := Option.some_inj.mp hk'
              subst hkk
              rw [hcg] at hg'
              have hgg : g = g' := Option.some_inj.mp hg'
              subst hgg
              rw [lookupA_upsertA] at htn'
              simp at htn'
              subst htn'
              exact ⟨_, lookupA_upsertA_self _ _ _⟩
            · intro k' g' st' i' tn' gn' hk' hg' hst' hi' htn' hgn'
              simp only [leadStep] at hk' hg' hst' hi' htn' hgn' ⊢
              rw [hct] at hk'
              have hkk : k = k' := Option.some_inj.mp hk'
              subst hkk
              rw [hcg] at hg'
              have hgg : g = g' := Option.some_inj.mp hg'
              subst hgg
              rw [hcs] at hst'
              have hss : st = st' := Option.some_inj.mp hst'
              subst hss
              rw [hci] at hi'
              have hii : i = i' := Option.some_inj.mp hi'
              subst hii
              rw [lookupA_upsertA] at htn'
              simp at htn'
              subst htn'
              rw [lookupA_upsertA] at hgn'
              simp at hgn'
              subst hgn'
              exact ⟨_, _, lookupA_upsertA_self _ _ _, lookupA_upsertA_self _ _ _⟩
  by_cases h5 : r.issue_type = ""
  · by_cases hm : r.summary = "Not an issue"
    · refine ⟨{ s with stopped := true }, [], step_sentinel s r hs h5 hm, ?_, ?_, ?_⟩
      · intro k hk
        exact hRI.1 k hk
      · intro k g tn hk hg htn
        exact hRI.2.1 k g tn hk hg htn
      · intro k g st i tn gn hk hg hst hi htn hgn
        exact hRI.2.2 k g st i tn gn hk hg hst hi htn hgn
    · exact ⟨s, [], step_empty s r hs h5 hm, hRI⟩
  · exact ⟨s, _, step_unknown s r hs h1 h2 h3 h4 h5, hRI⟩

theorem runFrom_total (l : List Row) (s : RState) (hRI : RInv s) :
    ∃ s' w, runFrom s l = some (s', w) ∧ RInv s' := by
  induction l generalizing s with
  | nil => exact ⟨s, [], rfl, hRI⟩
  | cons r rest ih =>
    obtain ⟨s₁, w₁, h₁, hRI₁⟩ := step_total s r hRI
    obtain ⟨s₂, w₂, h₂, hRI₂⟩ := ih s₁ hRI₁
    exact ⟨s₂, w₁ ++ w₂, by simp [runFrom, h₁, h₂], hRI₂⟩

/-- C7: for every row sequence the reduction pass completes and returns a
hierarchy: no branch of `process_data` ever hits a failing nested lookup, so
no exception aborts the pass — whenever the four cursor preconditions of the
`Lead` branch hold, the nested map lookups succeed (this is the invariant
`RInv` maintained by `runFrom_total`), and malformed rows are only dropped
with a warning. -/
theorem C7_reducer_total (rows : List Row) : ∃ t w, process_data rows = some (t, w) := by
  obtain ⟨s, w, h, _⟩ := runFrom_total rows initState RInv_init
  exact ⟨s.tree, w, by simp [process_data, h]⟩

theorem sentinel_run_proj (pre post : List Row) (r : Row)
    (h1 : r.issue_type = "") (h2 : r.summary = "Not an issue") (s : RState) :
    (runFrom s (pre ++ r :: post)).map (fun p => (p.1.tree, p.2)) =
      (runFrom s pre).map (fun p => (p.1.tree, p.2)) := by
  induction pre generalizing s with
  | nil =>
    simp only [List.nil_append, runFrom_nil]
    by_cases hs : s.stopped = true
    · rw [runFrom_stopped _ s hs]
    · have hs' : s.stopped = false := by simpa using hs
      rw [runFrom_cons, step_sentinel s r hs' h1 h2]
      simp only [Option.some_bind]
      rw [runFrom_stopped post { s with stopped := true } rfl]
      simp
  | cons a pre ih =>
    simp only [List.cons_append, runFrom_cons]
    cases h : step s a with
    | none => simp
    | some p =>
      obtain ⟨s₁, w₁⟩ := p
      simp only [Option.some_bind]
      have hih := ih s₁
      cases h3 : runFrom s₁ (pre ++ r :: post) with
      | none =>
        rw [h3] at hih
        cases h4 : runFrom s₁ pre with
        | none => simp [h3, h4]
        | some q => rw [h4] at hih; simp at hih
      | some q =>
        obtain ⟨s₂, w₂⟩ := q
        rw [h3] at hih
        cases h4 : runFrom s₁ pre with
        | none => rw [h4] at hih; simp at hih
        | some q2 =>
          obtain ⟨s₃, w₃⟩ := q2
          rw [h4] at hih
          simp at hih
          obtain ⟨ht, hw⟩ := hih
          simp [h3, h4, ht, hw]

/-- C2: a row whose issue type is empty and whose summary is exactly the end
sentinel marker `"Not an issue"` makes `process_data` return the hierarchy
(and warnings) of the rows before it alone: rows after it never influence
the result, whatever they contain. -/
theorem C2_sentinel_stops_processing (pre post : List Row) (r : Row)
    (h1 : r.issue_type = "") (h2 : r.summary = "Not an issue") :
    process_data (pre ++ r :: post) = process_data pre := by
  unfold process_data
  exact sentinel_run_proj pre post r h1 h2 initState

theorem C2_witness :
    process_data [⟨"Theme", "T", "a", "", "", "", "", ""⟩,
                  ⟨"", "", "Not an issue", "", "", "", "", ""⟩,
                  ⟨"Goal", "G", "b", "", "", "", "", ""⟩,
                  ⟨"Theme", "U", "c", "", "", "", "", ""⟩] =
      process_data [⟨"Theme", "T", "a", "", "", "", "", ""⟩] :=
  C2_sentinel_stops_processing [⟨"Theme", "T", "a", "", "", "", "", ""⟩]
    [⟨"Goal", "G", "b", "", "", "", "", ""⟩, ⟨"Theme", "U", "c", "", "", "", "", ""⟩]
    ⟨"", "", "Not an issue", "", "", "", "", ""⟩ rfl rfl

/-- Inversion for one loop iteration: a successful step from a non-stopped
state either leaves the state unchanged (a warned-and-skipped or no-op row),
or is one of the four node-creating branches, or is the sentinel `break`. -/
theorem step_shape (s : RState) (r : Row) (s' : RState) (w : List String)
    (hs : s.stopped = false) (h : step s r = some (s', w)) :
    s' = s ∨
    (r.issue_type = "Theme" ∧ s' = themeStep s r) ∨
    (∃ k tn, r.issue_type = "Goal" ∧ s.current_theme = some k ∧
       lookupA s.tree k = some tn ∧ s' = goalStep s r k tn) ∨
    (∃ k g tn gn, r.issue_type = "Initiative" ∧ s.current_theme = some k ∧
       s.current_goal = some g ∧ lookupA s.tree k = some tn ∧
       lookupA tn.goals g = some gn ∧ s' = initStep s r k g tn gn) ∨
    (∃ k g st i tn gn sm n, r.issue_type = "Lead" ∧
       lookupA s.tree k = some tn ∧ lookupA tn.goals g = some gn ∧
       lookupA gn.statuses st = some sm ∧ lookupA sm i = some n ∧
       s' = leadStep s r k g st i tn gn sm n) ∨
    (isSentinel r ∧ s' = { s with stopped := true }) := by
  by_cases h1 : r.issue_type = "Theme"
  · rw [step_theme s r hs h1] at h
    simp only [Option.some_inj, Prod.mk.injEq] at h
    exact Or.inr (Or.inl ⟨h1, h.1.symm⟩)
  by_cases h2 : r.issue_type = "Goal"
  · cases hct : s.current_theme with
    | none =>
      rw [step_goal_skip s r hs h2 (by simp [truthy, hct])] at h
      simp only [Option.some_inj, Prod.mk.injEq] at h
      exact Or.inl h.1.symm
    | some k =>
      by_cases hk : k = ""
      · rw [step_goal_skip s r hs h2 (by simp [truthy, hct, hk])] at h
        simp only [Option.some_inj, Prod.mk.injEq] at h
        exact Or.inl h.1.symm
      · cases htn : lookupA s.tree k with
        | none => simp [step, hs, h1, h2, hct, hk, htn] at h
        | some tn =>
          rw [step_goal_ok s r hs h2 k hct hk tn htn] at h
          simp only [Option.some_inj, Prod.mk.injEq] at h
          exact Or.inr (Or.inr (Or.inl ⟨k, tn, h2, rfl, htn, h.1.symm⟩))
  by_cases h3 : r.issue_type = "Initiative"
  · cases hct : s.current_theme with
    | none =>
      rw [step_init_skip s r hs h3 (by simp [truthy, hct])] at h
      simp only [Option.some_inj, Prod.mk.injEq] at h
      exact Or.inl h.1.symm
    | some k =>
      cases hcg : s.current_goal with
      | none =>
        rw [step_init_skip s r hs h3 (by simp [truthy, hcg])] at h
        simp only [Option.some_inj, Prod.mk.injEq] at h
        exact Or.inl h.1.symm
      | some g =>
        by_cases hk : k = ""
        · rw [step_init_skip s r hs h3 (by simp [truthy, hct, hk])] at h
          simp only [Option.some_inj, Prod.mk.injEq] at h
          exact Or.inl h.1.symm
        by_cases hg : g = ""
        · rw [step_init_skip s r hs h3 (by simp [truthy, hcg, hg])] at h
          simp only [Option.some_inj, Prod.mk.injEq] at h
          exact Or.inl h.1.symm
        cases htn : lookupA s.tree k with
        | none => simp [step, hs, h1, h2, h3, hct, hcg, hk, hg, htn] at h
        | some tn =>
          cases hgn : lookupA tn.goals g with
          | none => simp [step, hs, h1, h2, h3, hct, hcg, hk, hg, htn, hgn] at h
          | some gn =>
            rw [step_init_ok s r hs h3 k g hct hcg hk hg tn htn gn hgn] at h
            simp only [Option.some_inj, Prod.mk.injEq] at h
            exact Or.inr (Or.inr (Or.inr (Or.inl
              ⟨k, g, tn, gn, h3, rfl, rfl, htn, hgn, h.1.symm⟩)))
  by_cases h4 : r.issue_type = "Lead"
  · cases hct : s.current_theme with
    | none =>
      rw [step_lead_skip s r hs h4 (by simp [truthy, hct])] at h
      simp only [Option.some_inj, Prod.mk.injEq] at h
      exact Or.inl h.1.symm
    | some k =>
      cases hcg : s.current_goal with
      | none =>
        rw [step_lead_skip s r hs h4 (by simp [truthy, hcg])] at h
        simp only [Option.some_inj, Prod.mk.injEq] at h
        exact Or.inl h.1.symm
      | some g =>
        cases hcs : s.current_status with
        | none =>
          rw [step_lead_skip s r hs h4 (by simp [truthy, hcs])] at h
          simp only [Option.some_inj, Prod.mk.injEq] at h
          exact Or.inl h.1.symm
        | some st =>
          cases hci : s.current_initiative with
          | none =>
            rw [step_lead_skip s r hs h4 (by simp [truthy, hci])] at h
            simp only [Option.some_inj, Prod.mk.injEq] at h
            exact Or.inl h.1.symm
          | some i =>
            by_cases hk : k = ""
            · rw [step_lead_skip s r hs h4 (by simp [truthy, hct, hk])] at h
              simp only [Option.some_inj, Prod.mk.injEq] at h
              exact Or.inl h.1.symm
            by_cases hg : g = ""
            · rw [step_lead_skip s r hs h4 (by simp [truthy, hcg, hg])] at h
              simp only [Option.some_inj, Prod.mk.injEq] at h
              exact Or.inl h.1.symm
            by_cases hst : st = ""
            · rw [step_lead_skip s r hs h4 (by simp [truthy, hcs, hst])] at h
              simp only [Option.some_inj, Prod.mk.injEq] at h
              exact Or.inl h.1.symm
            by_cases hi : i = ""
            · rw [step_lead_skip s r hs h4 (by simp [truthy, hci, hi])] at h
              simp only [Option.some_inj, Prod.mk.injEq] at h
              exact Or.inl h.1.symm
            cases htn : lookupA s.tree k with
            | none => simp [step, hs, h1, h2, h3, h4, hct, hcg, hcs, hci, hk, hg, hst, hi, htn] at h
            | some tn =>
              cases hgn : lookupA tn.goals g with
              | none =>
                simp [step, hs, h1, h2, h3, h4, hct, hcg, hcs, hci, hk, hg, hst, hi, htn, hgn] at h
              | some gn =>
                cases hsm : lookupA gn.statuses st with
                | none =>
                  simp [step, hs, h1, h2, h3, h4, hct, hcg, hcs, hci, hk, hg, hst, hi,
                    htn, hgn, hsm] at h
                | some sm =>
                  cases hn : lookupA sm i with
                  | none =>
                    simp [step, hs, h1, h2, h3, h4, hct, hcg, hcs, hci, hk, hg, hst, hi,
                      htn, hgn, hsm, hn] at h
                  | some n =>
                    rw [step_lead_ok s r hs h4 k g st i hct hcg hcs hci hk hg hst hi
                      tn htn gn hgn sm hsm n hn] at h
                    simp only [Option.some_inj, Prod.mk.injEq] at h
                    exact Or.inr (Or.inr (Or.inr (Or.inr (Or.inl
                      ⟨k, g, st, i, tn, gn, sm, n, h4, htn, hgn, hsm, hn, h.1.symm⟩))))
  by_cases h5 : r.issue_type = ""
  · by_cases hm : r.summary = "Not an issue"
    · rw [step_sentinel s r hs h5 hm] at h
      simp only [Option.some_inj, Prod.mk.injEq] at h
      exact Or.inr (Or.inr (Or.inr (Or.inr (Or.inr ⟨⟨h5, hm⟩, h.1.symm⟩))))
    · rw [step_empty s r hs h5 hm] at h
      simp only [Option.some_inj, Prod.mk.injEq] at h
      exact Or.inl h.1.symm
  · rw [step_unknown s r hs h1 h2 h3 h4 h5] at h
    simp only [Option.some_inj, Prod.mk.injEq] at h
    exact Or.inl h.1.symm

theorem step_not_stopped (s : RState) (r : Row) (s' : RState) (w : List String)
    (hs : s.stopped = false) (hns : ¬ isSentinel r) (h : step s r = some (s', w)) :
    s'.stopped = false := by
  rcases step_shape s r s' w hs h with h0 | ⟨_, h0⟩ | ⟨k, tn, _, _, _, h0⟩ |
    ⟨k, g, tn, gn, _, _, _, _, _, h0⟩ | ⟨k, g, st, i, tn, gn, sm, n, _, _, _, _, _, h0⟩ |
    ⟨hsent, h0⟩
  · rw [h0]; exact hs
  · rw [h0]; simpa [themeStep] using hs
  · rw [h0]; simpa [goalStep] using hs
  · rw [h0]; simpa [initStep] using hs
  · rw [h0]; simpa [leadStep] using hs
  · exact absurd hsent hns

theorem runFrom_not_stopped (l : List Row) (s : RState) :
    ∀ s' w, runFrom s l = some (s', w) → s.stopped = false →
    (∀ r ∈ l, ¬ isSentinel r) → s'.stopped = false := by
  induction l generalizing s with
  | nil =>
    intro s' w h hs _
    simp only [runFrom_nil, Option.some_inj, Prod.mk.injEq] at h
    rw [← h.1]; exact hs
  | cons r rest ih =>
    intro s' w h hs hns
    rw [runFrom_cons] at h
    cases h1 : step s r with
    | none => rw [h1] at h; simp at h
    | some p =>
      obtain ⟨s₁, w₁⟩ := p
      rw [h1] at h
      simp only [Option.some_bind] at h
      cases h2 : runFrom s₁ rest with
      | none => rw [h2] at h; simp at h
      | some q =>
        obtain ⟨s₂, w₂⟩ := q
        rw [h2] at h
        simp only [Option.map_some', Option.some_inj, Prod.mk.injEq] at h
        have hs₁ : s₁.stopped = false :=
          step_not_stopped s r s₁ w₁ hs (hns r (by simp)) h1
        have hs₂ : s₂.stopped = false :=
          ih s₁ s₂ w₂ h2 hs₁ (fun x hx => hns x (by simp [hx]))
        rw [← h.1]; exact hs₂

theorem run_no_theme (pre : List Row) (s : RState)
    (hct : s.current_theme = none) (hs : s.stopped = false) :
    (∀ r ∈ pre, r.issue_type ≠ "Theme") → (∀ r ∈ pre, ¬ isSentinel r) →
    ∃ w, runFrom s pre = some (s, w) := by
  induction pre with
  | nil => intro _ _; exact ⟨[], rfl⟩
  | cons a pre ih =>
    intro hTheme hStop
    obtain ⟨w, hw⟩ := ih (fun x hx => hTheme x (by simp [hx])) (fun x hx => hStop x (by simp [hx]))
    have ha1 : a.issue_type ≠ "Theme" := hTheme a (by simp)
    have hasent : ¬ isSentinel a := hStop a (by simp)
    have hstep : ∃ wa, step s a = some (s, wa) := by
      by_cases h2 : a.issue_type = "Goal"
      · exact ⟨_, step_goal_skip s a hs h2 (by simp [truthy, hct])⟩
      by_cases h3 : a.issue_type = "Initiative"
      · exact ⟨_, step_init_skip s a hs h3 (by simp [truthy, hct])⟩
      by_cases h4 : a.issue_type = "Lead"
      · exact ⟨_, step_lead_skip s a hs h4 (by simp [truthy, hct])⟩
      by_cases h5 : a.issue_type = ""
      · have hm : a.summary ≠ "Not an issue" := fun hm => hasent ⟨h5, hm⟩
        exact ⟨[], step_empty s a hs h5 hm⟩
      · exact ⟨_, step_unknown s a hs ha1 h2 h3 h4 h5⟩
    obtain ⟨wa, hwa⟩ := hstep
    refine ⟨wa ++ w, ?_⟩
    rw [runFrom_cons, hwa]
    simp [hw]

/-- C5: a Goal row arriving while no Theme row has yet been seen (and the
sentinel has not yet fired) is dropped with exactly one warning: the
hierarchy and all other warnings are the same as if the row were absent; in
particular `[goalRow]` alone yields the empty hierarchy. -/
theorem C5_goal_without_theme (pre post : List Row) (g : Row)
    (hg : g.issue_type = "Goal")
    (hTheme : ∀ r ∈ pre, r.issue_type ≠ "Theme")
    (hStop : ∀ r ∈ pre, ¬ isSentinel r) :
    ∃ t w₁ w₂,
      process_data (pre ++ g :: post) = some (t, w₁ ++ goalWarning g.key :: w₂) ∧
      process_data (pre ++ post) = some (t, w₁ ++ w₂) := by
  obtain ⟨w₁, hpre⟩ := run_no_theme pre initState rfl rfl hTheme hStop
  obtain ⟨s₂, w₂, hpost, _⟩ := runFrom_total post initState RInv_init
  have hstepg : step initState g = some (initState, [goalWarning g.key]) :=
    step_goal_skip initState g rfl hg (by simp [truthy, initState])
  refine ⟨s₂.tree, w₁, w₂, ?_, ?_⟩
  · unfold process_data
    rw [runFrom_append, hpre]
    simp only [Option.some_bind]
    rw [runFrom_cons, hstepg]
    simp only [Option.some_bind]
    rw [hpost]
    simp
  · unfold process_data
    rw [runFrom_append, hpre]
    simp only [Option.some_bind]
    rw [hpost]
    simp

theorem C5_witness :
    (∃ t w₁ w₂,
      process_data [⟨"Goal", "G1", "x", "", "", "", "", ""⟩] =
        some (t, w₁ ++ goalWarning "G1" :: w₂) ∧
      process_data [] = some (t, w₁ ++ w₂)) ∧
    process_data [⟨"Goal", "G1", "x", "", "", "", "", ""⟩] = some ([], [goalWarning "G1"]) := by
  constructor
  · exact C5_goal_without_theme [] [] ⟨"Goal", "G1", "x", "", "", "", "", ""⟩ rfl
      (by simp) (by simp)
  · rfl

/-- C6: a Lead row immediately following a Goal row (no Initiative between
them, the sentinel not yet fired) is dropped with exactly one warning: the
hierarchy and all other warnings equal those of the sequence without the
Lead row.  After a Goal row either the theme cursor is unset (the Goal
itself was dropped) or the status cursor was just reset, so the Lead
precondition can never hold. -/
theorem C6_lead_after_goal (pre post : List Row) (g l : Row)
    (hg : g.issue_type = "Goal") (hl : l.issue_type = "Lead")
    (hStop : ∀ r ∈ pre, ¬ isSentinel r) :
    ∃ t w₁ w₂,
      process_data (pre ++ g :: l :: post) = some (t, w₁ ++ leadWarning l.key :: w₂) ∧
      process_data (pre ++ g :: post) = some (t, w₁ ++ w₂) := by
  obtain ⟨s₁, wp, hpre, hRI₁⟩ := runFrom_total pre initState RInv_init
  have hs₁ : s₁.stopped = false := runFrom_not_stopped pre initState s₁ wp hpre rfl hStop
  have hgoal : ∃ s₂ wg, step s₁ g = some (s₂, wg) ∧ RInv s₂ ∧ s₂.stopped = false ∧
      (truthy s₂.current_theme && truthy s₂.current_goal &&
       truthy s₂.current_status && truthy s₂.current_initiative) = false := by
    by_cases ht : truthy s₁.current_theme = true
    · cases hct : s₁.current_theme with
      | none => rw [hct] at ht; simp [truthy] at ht
      | some k =>
        have hk : k ≠ "" := by
          rw [hct] at ht
          simpa [truthy] using ht
        obtain ⟨tn, htn⟩ := hRI₁.1 k hct
        obtain ⟨s₂, wg, hstep, hRI₂⟩ := step_total s₁ g hRI₁
        rw [step_goal_ok s₁ g hs₁ hg k hct hk tn htn] at hstep
        simp only [Option.some_inj, Prod.mk.injEq] at hstep
        refine ⟨goalStep s₁ g k tn, [], step_goal_ok s₁ g hs₁ hg k hct hk tn htn, ?_, ?_, ?_⟩
        · rw [← hstep.1] at hRI₂; exact hRI₂
        · simpa [goalStep] using hs₁
        · simp [goalStep, truthy]
    · have ht' : truthy s₁.current_theme = false := by simpa using ht
      refine ⟨s₁, [goalWarning g.key], step_goal_skip s₁ g hs₁ hg ht', hRI₁, hs₁, ?_⟩
      simp [ht']
  obtain ⟨s₂, wg, hstepg, hRI₂, hs₂, hfour⟩ := hgoal
  have hstepl : step s₂ l = some (s₂, [leadWarning l.key]) :=
    step_lead_skip s₂ l hs₂ hl hfour
  obtain ⟨s₃, wpost, hpost, _⟩ := runFrom_total post s₂ hRI₂
  refine ⟨s₃.tree, wp ++ wg, wpost, ?_, ?_⟩
  · unfold process_data
    rw [runFrom_append, hpre]
    simp only [Option.some_bind]
    rw [runFrom_cons, hstepg]
    simp only [Option.some_bind]
    rw [runFrom_cons, hstepl]
    simp only [Option.some_bind]
    rw [hpost]
    simp
  · unfold process_data
    rw [runFrom_append, hpre]
    simp only [Option.some_bind]
    rw [runFrom_cons, hstepg]
    simp only [Option.some_bind]
    rw [hpost]
    simp

theorem C6_witness :
    ∃ t w₁ w₂,
      process_data [⟨"Theme", "T", "t", "", "", "", "", ""⟩,
                    ⟨"Goal", "G", "g", "", "", "", "", ""⟩,
                    ⟨"Lead", "L", "l", "", "", "", "", ""⟩] =
        some (t, w₁ ++ leadWarning "L" :: w₂) ∧
      process_data [⟨"Theme", "T", "t", "", "", "", "", ""⟩,
                    ⟨"Goal", "G", "g", "", "", "", "", ""⟩] = some (t, w₁ ++ w₂) :=
  C6_lead_after_goal [⟨"Theme", "T", "t", "", "", "", "", ""⟩] []
    ⟨"Goal", "G", "g", "", "", "", "", ""⟩ ⟨"Lead", "L", "l", "", "", "", "", ""⟩ rfl rfl
    (by decide)

theorem run_snoc (pre : List Row) (r : Row) (s : RState) (w : List String)
    (h : runFrom initState (pre ++ [r]) = some (s, w)) :
    ∃ s₁ w₁ w₂, runFrom initState pre = some (s₁, w₁) ∧ step s₁ r = some (s, w₂) := by
  rw [runFrom_append] at h
  cases hpre : runFrom initState pre with
  | none => rw [hpre] at h; simp at h
  | some p =>
    obtain ⟨s₁, w₁⟩ := p
    rw [hpre] at h
    simp only [Option.some_bind] at h
    cases hstep : step s₁ r with
    | none => rw [runFrom_cons, hstep] at h; simp at h
    | some q =>
      obtain ⟨s₂, w₂⟩ := q
      rw [runFrom_cons, hstep] at h
      simp only [Option.some_bind, runFrom_nil] at h
      simp at h
      exact ⟨s₁, w₁, w₂, rfl, by rw [hstep, h.1]⟩

/-- C8: duplicate keys never raise: the reduction always completes, and a
Theme / Goal / Initiative row assigns a completely fresh node under its key
in its parent scope — whatever was previously stored there, including all of
the earlier node's children, is discarded (Python dict assignment,
last-write-wins).  The second through fourth conjuncts read off the node
right after the row that wrote it. -/
theorem C8_last_write_wins :
    (∀ rows, ∃ t w, process_data rows = some (t, w)) ∧
    (∀ pre r s w, r.issue_type = "Theme" → runFrom initState (pre ++ [r]) = some (s, w) →
       s.stopped = false → lookupA s.tree r.key = some (mkThemeNode r)) ∧
    (∀ pre r s w k, r.issue_type = "Goal" → runFrom initState (pre ++ [r]) = some (s, w) →
       s.stopped = false → s.current_theme = some k → k ≠ "" →
       ∃ tn, lookupA s.tree k = some tn ∧ lookupA tn.goals r.key = some (mkGoalNode r)) ∧
    (∀ pre r s w k g, r.issue_type = "Initiative" → runFrom initState (pre ++ [r]) = some (s, w) →
       s.stopped = false → s.current_theme = some k → k ≠ "" →
       s.current_goal = some g → g ≠ "" →
       ∃ tn gn sm, lookupA s.tree k = some tn ∧ lookupA tn.goals g = some gn ∧
         lookupA gn.statuses r.status = some sm ∧ lookupA sm r.key = some (mkInitNode r)) := by
  refine ⟨?_, ?_, ?_, ?_⟩
  · intro rows
    obtain ⟨s, w, h, _⟩ := runFrom_total rows initState RInv_init
    exact ⟨s.tree, w, by simp [process_data, h]⟩
  · intro pre r s w htype hrun hstop
    obtain ⟨s₁, w₁, w₂, hpre, hstep⟩ := run_snoc pre r s w hrun
    by_cases hs₁ : s₁.stopped = true
    · rw [step_stopped s₁ r hs₁] at hstep
      simp only [Option.some_inj, Prod.mk.injEq] at hstep
      rw [← hstep.1] at hstop
      rw [hs₁] at hstop
      exact absurd hstop (by simp)
    · have hs₁' : s₁.stopped = false := by simpa using hs₁
      rw [step_theme s₁ r hs₁' htype] at hstep
      simp only [Option.some_inj, Prod.mk.injEq] at hstep
      rw [← hstep.1]
      simp only [themeStep]
      exact lookupA_upsertA_self _ _ _
  · intro pre r s w k htype hrun hstop hct hk
    obtain ⟨s₁, w₁, w₂, hpre, hstep⟩ := run_snoc pre r s w hrun
    by_cases hs₁ : s₁.stopped = true
    · rw [step_stopped s₁ r hs₁] at hstep
      simp only [Option.some_inj, Prod.mk.injEq] at hstep
      rw [← hstep.1] at hstop
      rw [hs₁] at hstop
      exact absurd hstop (by simp)
    have hs₁' : s₁.stopped = false := by simpa using hs₁
    cases hct₁ : s₁.current_theme with
    | none =>
      rw [step_goal_skip s₁ r hs₁' htype (by simp [truthy, hct₁])] at hstep
      simp only [Option.some_inj, Prod.mk.injEq] at hstep
      rw [← hstep.1] at hct
      rw [hct₁] at hct
      simp at hct
    | some k₁ =>
      by_cases hk₁ : k₁ = ""
      · rw [step_goal_skip s₁ r hs₁' htype (by simp [truthy, hct₁, hk₁])] at hstep
        simp only [Option.some_inj, Prod.mk.injEq] at hstep
        rw [← hstep.1] at hct
        rw [hct₁] at hct
        have : k₁ = k := Option.some_inj.mp hct
        exact absurd (this ▸ hk₁) hk
      · cases htn : lookupA s₁.tree k₁ with
        | none => simp [step, hs₁', htype, hct₁, hk₁, htn] at hstep
        | some tn =>
          rw [step_goal_ok s₁ r hs₁' htype k₁ hct₁ hk₁ tn htn] at hstep
          simp only [Option.some_inj, Prod.mk.injEq] at hstep
          have hctk : k₁ = k := by
            rw [← hstep.1] at hct
            simp only [goalStep] at hct
            rw [hct₁] at hct
            exact Option.some_inj.mp hct
          subst hctk
          rw [← hstep.1]
          simp only [goalStep]
          exact ⟨_, lookupA_upsertA_self _ _ _, lookupA_upsertA_self _ _ _⟩
  · intro pre r s w k g htype hrun hstop hct hk hcg hg
    obtain ⟨s₁, w₁, w₂, hpre, hstep⟩ := run_snoc pre r s w hrun
    by_cases hs₁ : s₁.stopped = true
    · rw [step_stopped s₁ r hs₁] at hstep
      simp only [Option.some_inj, Prod.mk.injEq] at hstep
      rw [← hstep.1] at hstop
      rw [hs₁] at hstop
      exact absurd hstop (by simp)
    have hs₁' : s₁.stopped = false := by simpa using hs₁
    cases hct₁ : s₁.current_theme with
    | none =>
      rw [step_init_skip s₁ r hs₁' htype (by simp [truthy, hct₁])] at hstep
      simp only [Option.some_inj, Prod.mk.injEq] at hstep
      rw [← hstep.1] at hct
      rw [hct₁] at hct
      simp at hct
    | some k₁ =>
      cases hcg₁ : s₁.current_goal with
      | none =>
        rw [step_init_skip s₁ r hs₁' htype (by simp [truthy, hcg₁])] at hstep
        simp only [Option.some_inj, Prod.mk.injEq] at hstep
        rw [← hstep.1] at hcg
        rw [hcg₁] at hcg
        simp at hcg
      | some g₁ =>
        by_cases hk₁ : k₁ = ""
        · rw [step_init_skip s₁ r hs₁' htype (by simp [truthy, hct₁, hk₁])] at hstep
          simp only [Option.some_inj, Prod.mk.injEq] at hstep
          rw [← hstep.1] at hct
          rw [hct₁] at hct
          have : k₁ = k := Option.some_inj.mp hct
          exact absurd (this ▸ hk₁) hk
        by_cases hg₁ : g₁ = ""
        · rw [step_init_skip s₁ r hs₁' htype (by simp [truthy, hcg₁, hg₁])] at hstep
          simp only [Option.some_inj, Prod.mk.injEq] at hstep
          rw [← hstep.1] at hcg
          rw [hcg₁] at hcg
          have : g₁ = g := Option.some_inj.mp hcg
          exact absurd (this ▸ hg₁) hg
        cases htn : lookupA s₁.tree k₁ with
        | none => simp [step, hs₁', htype, hct₁, hcg₁, hk₁, hg₁, htn] at hstep
        | some tn =>
          cases hgn : lookupA tn.goals g₁ with
          | none => simp [step, hs₁', htype, hct₁, hcg₁, hk₁, hg₁, htn, hgn] at hstep
          | some gn =>
            rw [step_init_ok s₁ r hs₁' htype k₁ g₁ hct₁ hcg₁ hk₁ hg₁ tn htn gn hgn] at hstep
            simp only [Option.some_inj, Prod.mk.injEq] at hstep
            have hctk : k₁ = k := by
              rw [← hstep.1] at hct
              simp only [initStep] at hct
              rw [hct₁] at hct
              exact Option.some_inj.mp hct
            subst hctk
            have hcgg : g₁ = g := by
              rw [← hstep.1] at hcg
              simp only [initStep] at hcg
              rw [hcg₁] at hcg
              exact Option.some_inj.mp hcg
            subst hcgg
            rw [← hstep.1]
            simp only [initStep]
            exact ⟨_, _, _, lookupA_upsertA_self _ _ _, lookupA_upsertA_self _ _ _,
              lookupA_upsertA_self _ _ _, lookupA_upsertA_self _ _ _⟩

def rowsC8T : List Row :=
  [⟨"Theme", "T", "a", "", "", "", "", ""⟩, ⟨"Goal", "G", "g", "", "", "", "", ""⟩,
   ⟨"Initiative", "I", "i", "", "Done", "", "", ""⟩, ⟨"Theme", "T", "b", "", "", "", "", ""⟩]

def rowsC8G : List Row :=
  [⟨"Theme", "T", "a", "", "", "", "", ""⟩, ⟨"Goal", "G", "g1", "", "", "", "", ""⟩,
   ⟨"Goal", "G", "g2", "", "", "", "", ""⟩]

def rowsC8I : List Row :=
  [⟨"Theme", "T", "a", "", "", "", "", ""⟩, ⟨"Goal", "G", "g", "", "", "", "", ""⟩,
   ⟨"Initiative", "I", "one", "", "Done", "", "", ""⟩, ⟨"Lead", "L", "l", "", "", "", "", ""⟩,
   ⟨"Initiative", "I", "two", "", "Done", "", "", ""⟩]

def stateC8T : RState := ⟨[("T", ⟨"b", "", []⟩)], some "T", none, none, none, false⟩

def stateC8G : RState :=
  ⟨[("T", ⟨"a", "", [("G", ⟨"g2", "", "", []⟩)]⟩)], some "T", some "G", none, none, false⟩

def stateC8I : RState :=
  ⟨[("T", ⟨"a", "", [("G", ⟨"g", "", "", [("Done", [("I", ⟨"two", "", "", "", "", []⟩)])]⟩)]⟩)],
   some "T", some "G", some "Done", some "I", false⟩

theorem C8_witness :
    lookupA stateC8T.tree "T" = some (mkThemeNode ⟨"Theme", "T", "b", "", "", "", "", ""⟩) ∧
    (∃ tn, lookupA stateC8G.tree "T" = some tn ∧
       lookupA tn.goals "G" = some (mkGoalNode ⟨"Goal", "G", "g2", "", "", "", "", ""⟩)) ∧
    (∃ tn gn sm, lookupA stateC8I.tree "T" = some tn ∧ lookupA tn.goals "G" = some gn ∧
       lookupA gn.statuses "Done" = some sm ∧
       lookupA sm "I" = some (mkInitNode ⟨"Initiative", "I", "two", "", "Done", "", "", ""⟩)) := by
  refine ⟨?_, ?_, ?_⟩
  · exact C8_last_write_wins.2.1 [⟨"Theme", "T", "a", "", "", "", "", ""⟩,
      ⟨"Goal", "G", "g", "", "", "", "", ""⟩, ⟨"Initiative", "I", "i", "", "Done", "", "", ""⟩]
      ⟨"Theme", "T", "b", "", "", "", "", ""⟩ stateC8T [] rfl (by decide) rfl
  · exact C8_last_write_wins.2.2.1 [⟨"Theme", "T", "a", "", "", "", "", ""⟩,
      ⟨"Goal", "G", "g1", "", "", "", "", ""⟩]
      ⟨"Goal", "G", "g2", "", "", "", "", ""⟩ stateC8G [] "T" rfl (by decide) rfl rfl (by decide)
  · exact C8_last_write_wins.2.2.2 [⟨"Theme", "T", "a", "", "", "", "", ""⟩,
      ⟨"Goal", "G", "g", "", "", "", "", ""⟩, ⟨"Initiative", "I", "one", "", "Done", "", "", ""⟩,
      ⟨"Lead", "L", "l", "", "", "", "", ""⟩]
      ⟨"Initiative", "I", "two", "", "Done", "", "", ""⟩ stateC8I [] "T" "G" rfl (by decide) rfl
      rfl (by decide) rfl (by decide)

/-- An initiative node is reachable in the hierarchy under theme key `k`,
goal key `g`, status group `st` and initiative key `i`. -/
def hasInit (t : SDict ThemeNode) (k g st i : String) : Prop :=
  ∃ tn gn sm n, lookupA t k = some tn ∧ lookupA tn.goals g = some gn ∧
    lookupA gn.statuses st = some sm ∧ lookupA sm i = some n

/-- Executable form of `hasInit`. -/
def hasInitB (t : SDict ThemeNode) (k g st i : String) : Bool :=
  match lookupA t k with
  | none => false
  | some tn =>
    match lookupA tn.goals g with
    | none => false
    | some gn =>
      match lookupA gn.statuses st with
      | none => false
      | some sm => (lookupA sm i).isSome

theorem step_hasInit (s : RState) (r : Row) (s' : RState) (w : List String)
    (hs : s.stopped = false) (h : step s r = some (s', w)) (k g st i : String)
    (hI : hasInit s'.tree k g st i) :
    hasInit s.tree k g st i ∨ (r.issue_type = "Initiative" ∧ r.key = i ∧ r.status = st) := by
  obtain ⟨tn, gn, sm, n, h1, h2, h3, h4⟩ := hI
  rcases step_shape s r s' w hs h with h0 | ⟨hty, h0⟩ | ⟨k₀, tn₀, hty, hct, htn₀, h0⟩ |
    ⟨k₀, g₀, tn₀, gn₀, hty, hct, hcg, htn₀, hgn₀, h0⟩ |
    ⟨k₀, g₀, st₀, i₀, tn₀, gn₀, sm₀, n₀, hty, htn₀, hgn₀, hsm₀, hn₀, h0⟩ | ⟨hsent, h0⟩
  · left; rw [h0] at h1; exact ⟨tn, gn, sm, n, h1, h2, h3, h4⟩
  · rw [h0] at h1
    simp only [themeStep, lookupA_upsertA] at h1
    by_cases hkk : r.key = k
    · rw [if_pos hkk] at h1
      have htn : mkThemeNode r = tn := Option.some_inj.mp h1
      rw [← htn] at h2
      simp [mkThemeNode] at h2
    · rw [if_neg hkk] at h1
      left; exact ⟨tn, gn, sm, n, h1, h2, h3, h4⟩
  · rw [h0] at h1
    simp only [goalStep, lookupA_upsertA] at h1
    by_cases hkk : k₀ = k
    · rw [if_pos hkk] at h1
      have htn : _ = tn := Option.some_inj.mp h1
      rw [← htn] at h2
      simp only [lookupA_upsertA] at h2
      by_cases hgg : r.key = g
      · rw [if_pos hgg] at h2
        have hgn : mkGoalNode r = gn := Option.some_inj.mp h2
        rw [← hgn] at h3
        simp [mkGoalNode] at h3
      · rw [if_neg hgg] at h2
        left; exact ⟨tn₀, gn, sm, n, hkk ▸ htn₀, h2, h3, h4⟩
    · rw [if_neg hkk] at h1
      left; exact ⟨tn, gn, sm, n, h1, h2, h3, h4⟩
  · rw [h0] at h1
    simp only [initStep, lookupA_upsertA] at h1
    by_cases hkk : k₀ = k
    · rw [if_pos hkk] at h1
      have htn : _ = tn := Option.some_inj.mp h1
      rw [← htn] at h2
      simp only [lookupA_upsertA] at h2
      by_cases hgg : g₀ = g
      · rw [if_pos hgg] at h2
        have hgn : _ = gn := Option.some_inj.mp h2
        rw [← hgn] at h3
        simp only [lookupA_upsertA] at h3
        by_cases hss : r.status = st
        · rw [if_pos hss] at h3
          have hsm : _ = sm := Option.some_inj.mp h3
          rw [← hsm] at h4
          simp only [lookupA_upsertA] at h4
          by_cases hii : r.key = i
          · right; exact ⟨hty, hii, hss⟩
          · rw [if_neg hii] at h4
            cases hsm1 : lookupA gn₀.statuses r.status with
            | none => rw [hsm1] at h4; simp at h4
            | some sm₁ =>
              rw [hsm1] at h4
              simp only [Option.getD_some] at h4
              left
              exact ⟨tn₀, gn₀, sm₁, n, hkk ▸ htn₀, hgg ▸ hgn₀, hss ▸ hsm1, h4⟩
        · rw [if_neg hss] at h3
          left; exact ⟨tn₀, gn₀, sm, n, hkk ▸ htn₀, hgg ▸ hgn₀, h3, h4⟩
      · rw [if_neg hgg] at h2
        left; exact ⟨tn₀, gn, sm, n, hkk ▸ htn₀, h2, h3, h4⟩
    · rw [if_neg hkk] at h1
      left; exact ⟨tn, gn, sm, n, h1, h2, h3, h4⟩
  · rw [h0] at h1
    simp only [leadStep, lookupA_upsertA] at h1
    by_cases hkk : k₀ = k
    · rw [if_pos hkk] at h1
      have htn : _ = tn := Option.some_inj.mp h1
      rw [← htn] at h2
      simp only [lookupA_upsertA] at h2
      by_cases hgg : g₀ = g
      · rw [if_pos hgg] at h2
        have hgn : _ = gn := Option.some_inj.mp h2
        rw [← hgn] at h3
        simp only [lookupA_upsertA] at h3
        by_cases hss : st₀ = st
        · rw [if_pos hss] at h3
          have hsm : _ = sm := Option.some_inj.mp h3
          rw [← hsm] at h4
          simp only [lookupA_upsertA] at h4
          by_cases hii : i₀ = i
          · left
            exact ⟨tn₀, gn₀, sm₀, n₀, hkk ▸ htn₀, hgg ▸ hgn₀, hss ▸ hsm₀, hii ▸ hn₀⟩
          · rw [if_neg hii] at h4
            left; exact ⟨tn₀, gn₀, sm₀, n, hkk ▸ htn₀, hgg ▸ hgn₀, hss ▸ hsm₀, h4⟩
        · rw [if_neg hss] at h3
          left; exact ⟨tn₀, gn₀, sm, n, hkk ▸ htn₀, hgg ▸ hgn₀, h3, h4⟩
      · rw [if_neg hgg] at h2
        left; exact ⟨tn₀, gn, sm, n, hkk ▸ htn₀, h2, h3, h4⟩
    · rw [if_neg hkk] at h1
      left; exact ⟨tn, gn, sm, n, h1, h2, h3, h4⟩
  · left
    rw [h0] at h1
    exact ⟨tn, gn, sm, n, h1, h2, h3, h4⟩

theorem runFrom_hasInit (l : List Row) (s : RState) :
    ∀ s' w, runFrom s l = some (s', w) → s.stopped = false →
    ∀ k g st i, hasInit s'.tree k g st i →
      hasInit s.tree k g st i ∨
      ∃ r ∈ l, r.issue_type = "Initiative" ∧ r.key = i ∧ r.status = st := by
  induction l generalizing s with
  | nil =>
    intro s' w h _ k g st i hI
    simp only [runFrom_nil, Option.some_inj, Prod.mk.injEq] at h
    left
    rw [h.1]
    exact hI
  | cons r rest ih =>
    intro s' w h hs k g st i hI
    rw [runFrom_cons] at h
    cases h1 : step s r with
    | none => rw [h1] at h; simp at h
    | some p =>
      obtain ⟨s₁, w₁⟩ := p
      rw [h1] at h
      simp only [Option.some_bind] at h
      cases h2 : runFrom s₁ rest with
      | none => rw [h2] at h; simp at h
      | some q =>
        obtain ⟨s₂, w₂⟩ := q
        rw [h2] at h
        simp at h
        by_cases hs₁ : s₁.stopped = true
        · rw [runFrom_stopped rest s₁ hs₁] at h2
          simp only [Option.some_inj, Prod.mk.injEq] at h2
          rw [← h.1, ← h2.1] at hI
          rcases step_hasInit s r s₁ w₁ hs h1 k g st i hI with hL | hR
          · exact Or.inl hL
          · exact Or.inr ⟨r, by simp, hR⟩
        · have hs₁' : s₁.stopped = false := by simpa using hs₁
          rw [← h.1] at hI
          rcases ih s₁ s₂ w₂ h2 hs₁' k g st i hI with hL | hR
          · rcases step_hasInit s r s₁ w₁ hs h1 k g st i hL with hLL | hRR
            · exact Or.inl hLL
            · exact Or.inr ⟨r, by simp, hRR⟩
          · obtain ⟨r', hr', hp⟩ := hR
            exact Or.inr ⟨r', by simp [hr'], hp⟩

/-- C1 (amended): every Initiative reachable in the hierarchy produced by
`process_data` under status group `st` with key `i` comes from at least one
Initiative-typed input row whose `Key` is `i` and whose `Status` is `st`
(the same row supplies both).  ("Exactly one" fails: duplicate keys are
allowed and overwrite, see the counterexample.) -/
theorem C1_initiative_provenance (rows : List Row) (t : SDict ThemeNode) (w : List String)
    (hpd : process_data rows = some (t, w)) (k g st i : String)
    (hI : hasInit t k g st i) :
    ∃ r ∈ rows, r.issue_type = "Initiative" ∧ r.key = i ∧ r.status = st := by
  unfold process_data at hpd
  cases hrun : runFrom initState rows with
  | none => rw [hrun] at hpd; simp at hpd
  | some p =>
    obtain ⟨s', w'⟩ := p
    rw [hrun] at hpd
    simp at hpd
    rw [← hpd.1] at hI
    rcases runFrom_hasInit rows initState s' w' hrun rfl k g st i hI with hL | hR
    · obtain ⟨tn, gn, sm, n, h1, _⟩ := hL
      simp [initState] at h1
    · exact hR

def exRowsC1 : List Row :=
  [⟨"Theme", "T", "t", "", "", "", "", ""⟩, ⟨"Goal", "G", "g", "", "", "", "", ""⟩,
   ⟨"Initiative", "I", "first", "", "Done", "", "", ""⟩,
   ⟨"Initiative", "I", "second", "", "Done", "", "", ""⟩]

/-- C1 counterexample to the claim as stated: with two Initiative rows
carrying the same key `"I"` (and status `"Done"`), the hierarchy contains an
Initiative stored under key `"I"`, yet two — not exactly one —
Initiative-typed rows of the input have that `Key`: the claim's "exactly
one" is refuted at this input. -/
theorem C1_counterexample :
    ((process_data exRowsC1).map (fun p => hasInitB p.1 "T" "G" "Done" "I")) = some true ∧
    (exRowsC1.filter (fun r => r.issue_type == "Initiative" && r.key == "I")).length = 2 := by
  constructor
  · decide
  · decide

def exRowsC1w : List Row :=
  [⟨"Theme", "T", "t", "", "", "", "", ""⟩, ⟨"Goal", "G", "g", "", "", "", "", ""⟩,
   ⟨"Initiative", "I", "one", "", "Done", "", "", ""⟩]

def exInodeC1 : InitNode := ⟨"one", "", "", "", "", []⟩

def exGnodeC1 : GoalNode := ⟨"g", "", "", [("Done", [("I", exInodeC1)])]⟩

def exTnodeC1 : ThemeNode := ⟨"t", "", [("G", exGnodeC1)]⟩

theorem C1_witness :
    ∃ r ∈ exRowsC1w, r.issue_type = "Initiative" ∧ r.key = "I" ∧ r.status = "Done" :=
  C1_initiative_provenance exRowsC1w [("T", exTnodeC1)] [] (by decide) "T" "G" "Done" "I"
    ⟨exTnodeC1, exGnodeC1, [("I", exInodeC1)], exInodeC1, by decide, by decide, by decide, by decide⟩

/-
Renderer lemmas.
-/

/-- `status in goal_data['statuses'] and goal_data['statuses'][status]`:
the status group exists and is non-empty. -/
def statusNonempty (gn : GoalNode) (st : String) : Bool :=
  match lookupA gn.statuses st with
  | some sm => !sm.isEmpty
  | none => false

def statusLabelOf : Block → Option String
  | Block.statusHeading st => some st
  | _ => none

/-- The sequence of status-heading labels of a block list. -/
def statusLabels (bs : List Block) : List String :=
  bs.filterMap statusLabelOf

def isThemeHeading : Block → Bool
  | Block.themeHeading _ _ _ => true
  | _ => false

def isGoalHeading : Block → Bool
  | Block.goalHeading _ _ _ => true
  | _ => false

/-- A goal renders something: some status in the display order is present
and non-empty. -/
def goalQualifies (order : List String) (gn : GoalNode) : Bool :=
  order.any (statusNonempty gn)

/-- A theme renders something: some of its goals qualifies. -/
def themeQualifies (order : List String) (tn : ThemeNode) : Bool :=
  tn.goals.any (fun g => goalQualifies order g.2)

theorem statusLabels_append (a b : List Block) :
    statusLabels (a ++ b) = statusLabels a ++ statusLabels b := by
  simp [statusLabels]

theorem statusLabels_rows (sm : SDict InitNode) :
    (sm.map (fun p => add_initiative_to_table p.1 p.2)).filterMap statusLabelOf = [] := by
  induction sm with
  | nil => rfl
  | cons p rest ih =>
    simp only [List.map_cons, List.filterMap_cons, add_initiative_to_table, statusLabelOf]
    exact ih

theorem countP_rows_theme (sm : SDict InitNode) :
    (sm.map (fun p => add_initiative_to_table p.1 p.2)).countP isThemeHeading = 0 := by
  induction sm with
  | nil => rfl
  | cons p rest ih =>
    simp only [List.map_cons, List.countP_cons, add_initiative_to_table, isThemeHeading]
    simpa using ih

theorem countP_rows_goal (sm : SDict InitNode) :
    (sm.map (fun p => add_initiative_to_table p.1 p.2)).countP isGoalHeading = 0 := by
  induction sm with
  | nil => rfl
  | cons p rest ih =>
    simp only [List.map_cons, List.countP_cons, add_initiative_to_table, isGoalHeading]
    simpa using ih

theorem statusLabels_atgc (tk : String) (tn : ThemeNode) (gk : String) (gn : GoalNode)
    (st : String) (sm : SDict InitNode) (tp gp : Bool) :
    statusLabels (add_theme_goal_content tk tn gk gn st sm tp gp).1 = [st] := by
  cases tp <;> cases gp <;>
    simp [add_theme_goal_content, add_status_table, statusLabels, statusLabelOf,
      statusLabels_rows sm]

theorem countP_atgc_theme (tk : String) (tn : ThemeNode) (gk : String) (gn : GoalNode)
    (st : String) (sm : SDict InitNode) (tp gp : Bool) :
    (add_theme_goal_content tk tn gk gn st sm tp gp).1.countP isThemeHeading =
      if tp then 0 else 1 := by
  have hrows := countP_rows_theme sm
  cases tp <;> cases gp <;>
    simp [add_theme_goal_content, add_status_table, isThemeHeading, List.countP_cons,
      List.countP_append, hrows]

theorem countP_atgc_goal (tk : String) (tn : ThemeNode) (gk : String) (gn : GoalNode)
    (st : String) (sm : SDict InitNode) (tp gp : Bool) :
    (add_theme_goal_content tk tn gk gn st sm tp gp).1.countP isGoalHeading =
      if gp then 0 else 1 := by
  have hrows := countP_rows_goal sm
  cases tp <;> cases gp <;>
    simp [add_theme_goal_content, add_status_table, isGoalHeading, List.countP_cons,
      List.countP_append, hrows]

theorem atgc_tp (tk : String) (tn : ThemeNode) (gk : String) (gn : GoalNode)
    (st : String) (sm : SDict InitNode) (tp gp : Bool) :
    (add_theme_goal_content tk tn gk gn st sm tp gp).2.1 = true := rfl

theorem atgc_gp (tk : String) (tn : ThemeNode) (gk : String) (gn : GoalNode)
    (st : String) (sm : SDict InitNode) (tp gp : Bool) :
    (add_theme_goal_content tk tn gk gn st sm tp gp).2.2 = true := rfl

theorem statusLabels_renderStatuses (tk : String) (tn : ThemeNode) (gk : String)
    (gn : GoalNode) :
    ∀ (order : List String) (tp gp : Bool),
    statusLabels (renderStatuses tk tn gk gn tp gp order).1 =
      order.filter (statusNonempty gn) := by
  intro order
  induction order with
  | nil => intro tp gp; simp [renderStatuses, statusLabels]
  | cons st rest ih =>
    intro tp gp
    simp only [renderStatuses]
    cases hsm : lookupA gn.statuses st with
    | none =>
      have hne : statusNonempty gn st = false := by simp [statusNonempty, hsm]
      simp [List.filter_cons, hne, ih]
    | some sm =>
      by_cases he : sm.isEmpty
      · have hne : statusNonempty gn st = false := by simp [statusNonempty, hsm, he]
        simp [he, List.filter_cons, hne, ih]
      · have he' : sm.isEmpty = false := by simpa using he
        have hne : statusNonempty gn st = true := by simp [statusNonempty, hsm, he']
        simp [he', List.filter_cons, hne, statusLabels_append, statusLabels_atgc,
          atgc_tp, atgc_gp, ih]

theorem statusLabels_renderGoals (tk : String) (tn : ThemeNode) (order : List String) :
    ∀ (goals : SDict GoalNode) (tp : Bool),
    statusLabels (renderGoals tk tn order tp goals).1 =
      goals.flatMap (fun g => order.filter (statusNonempty g.2)) := by
  intro goals
  induction goals with
  | nil => intro tp; simp [renderGoals, statusLabels]
  | cons p rest ih =>
    intro tp
    obtain ⟨gk, gn⟩ := p
    simp only [renderGoals]
    simp [statusLabels_append, statusLabels_renderStatuses, ih, List.flatMap_cons]

theorem statusLabels_renderThemes (order : List String) :
    ∀ ts : SDict ThemeNode,
    statusLabels (renderThemes order ts) =
      ts.flatMap (fun t => t.2.goals.flatMap (fun g => order.filter (statusNonempty g.2))) := by
  intro ts
  induction ts with
  | nil => simp [renderThemes, statusLabels]
  | cons p rest ih =>
    obtain ⟨tk, tn⟩ := p
    simp [renderThemes, statusLabels_append, statusLabels_renderGoals, ih, List.flatMap_cons]

/-- C3: the status-group headings emitted by the renderer are, goal by goal
(in hierarchy order), exactly the display order `Done, In Progress, Next`
(plus `To Do` only when the flag is set) filtered to the non-empty groups of
that goal: the fixed priority order overrides insertion order, any label
outside the list renders nothing, and `To Do` renders nothing when the flag
is false. -/
theorem C3_status_order (tree : SDict ThemeNode) (include_todo : Bool) :
    statusLabels (add_content tree include_todo) =
      tree.flatMap (fun t => t.2.goals.flatMap (fun g =>
        (statusOrder include_todo).filter (statusNonempty g.2))) := by
  unfold add_content
  exact statusLabels_renderThemes (statusOrder include_todo) tree

theorem renderStatuses_spec (tk : String) (tn : ThemeNode) (gk : String) (gn : GoalNode) :
    ∀ (order : List String) (tp gp : Bool),
    ((renderStatuses tk tn gk gn tp gp order).2.1 = (tp || order.any (statusNonempty gn))) ∧
    ((renderStatuses tk tn gk gn tp gp order).2.2 = (gp || order.any (statusNonempty gn))) ∧
    ((renderStatuses tk tn gk gn tp gp order).1.countP isThemeHeading =
       if tp then 0 else if order.any (statusNonempty gn) then 1 else 0) ∧
    ((renderStatuses tk tn gk gn tp gp order).1.countP isGoalHeading =
       if gp then 0 else if order.any (statusNonempty gn) then 1 else 0) ∧
    (order.any (statusNonempty gn) = false → (renderStatuses tk tn gk gn tp gp order).1 = []) := by
  intro order
  induction order with
  | nil =>
    intro tp gp
    refine ⟨by simp [renderStatuses], by simp [renderStatuses], ?_, ?_,
      fun _ => by simp [renderStatuses]⟩
    · cases tp <;> simp [renderStatuses]
    · cases gp <;> simp [renderStatuses]
  | cons st rest ih =>
    intro tp gp
    simp only [renderStatuses]
    cases hsm : lookupA gn.statuses st with
    | none =>
      have hne : statusNonempty gn st = false := by simp [statusNonempty, hsm]
      simpa [List.any_cons, hne] using ih tp gp
    | some sm =>
      by_cases he : sm.isEmpty
      · have hne : statusNonempty gn st = false := by simp [statusNonempty, hsm, he]
        simpa [he, List.any_cons, hne] using ih tp gp
      · have he' : sm.isEmpty = false := by simpa using he
        have hne : statusNonempty gn st = true := by simp [statusNonempty, hsm, he']
        obtain ⟨ih1, ih2, ih3, ih4, ih5⟩ := ih true true
        refine ⟨?_, ?_, ?_, ?_, ?_⟩
        · simp [he', List.any_cons, hne, atgc_tp, atgc_gp, ih1]
        · simp [he', List.any_cons, hne, atgc_tp, atgc_gp, ih2]
        · cases tp <;>
            simp [he', List.any_cons, hne, atgc_tp, atgc_gp, List.countP_append,
              countP_atgc_theme, ih3]
        · cases gp <;>
            simp [he', List.any_cons, hne, atgc_tp, atgc_gp, List.countP_append,
              countP_atgc_goal, ih4]
        · intro hcontra
          rw [List.any_cons, hne] at hcontra
          simp at hcontra

theorem renderGoals_spec (tk : String) (tn : ThemeNode) (order : List String) :
    ∀ (goals : SDict GoalNode) (tp : Bool),
    ((renderGoals tk tn order tp goals).2 =
       (tp || goals.any (fun g => goalQualifies order g.2))) ∧
    ((renderGoals tk tn order tp goals).1.countP isThemeHeading =
       if tp then 0 else if goals.any (fun g => goalQualifies order g.2) then 1 else 0) ∧
    (goals.any (fun g => goalQualifies order g.2) = false →
       (renderGoals tk tn order tp goals).1 = []) := by
  intro goals
  induction goals with
  | nil =>
    intro tp
    refine ⟨by simp [renderGoals], ?_, fun _ => by simp [renderGoals]⟩
    cases tp <;> simp [renderGoals]
  | cons p rest ih =>
    intro tp
    obtain ⟨gk, gn⟩ := p
    obtain ⟨hS1, hS2, hS3, hS4, hS5⟩ := renderStatuses_spec tk tn gk gn order tp false
    rw [show order.any (statusNonempty gn) = goalQualifies order gn from rfl] at hS1 hS3 hS5
    obtain ⟨ihf, ihc, ihe⟩ := ih (tp || goalQualifies order gn)
    refine ⟨?_, ?_, ?_⟩
    · simp only [renderGoals, hS1, ihf]
      cases tp <;> cases hq : goalQualifies order gn <;> simp [List.any_cons, hq]
    · simp only [renderGoals, List.countP_append, hS1, hS3, ihc]
      cases tp <;> cases hq : goalQualifies order gn <;>
        cases hrest : rest.any (fun g => goalQualifies order g.2) <;>
        simp [List.any_cons, hq, hrest]
    · intro h
      rw [List.any_cons] at h
      obtain ⟨h1, h2⟩ : goalQualifies order gn = false ∧
          (rest.any fun g => goalQualifies order g.2) = false := by simpa using h
      simp only [renderGoals, hS1, h1, Bool.or_false]
      rw [hS5 h1]
      simp only [List.nil_append]
      have hthis := ihe
      rw [h1, Bool.or_false] at hthis
      exact hthis h2

theorem countP_renderThemes (order : List String) :
    ∀ ts : SDict ThemeNode,
    (renderThemes order ts).countP isThemeHeading =
      (ts.filter (fun t => themeQualifies order t.2)).length := by
  intro ts
  induction ts with
  | nil => simp [renderThemes]
  | cons p rest ih =>
    obtain ⟨tk, tn⟩ := p
    have h := (renderGoals_spec tk tn order tn.goals false).2.1
    simp only [renderThemes, List.countP_append, h, ih]
    cases hq : tn.goals.any (fun g => goalQualifies order g.2) <;>
      simp [List.filter_cons, themeQualifies, hq, Nat.add_comm]

/-- C4: a theme's section header appears in the output exactly once per
qualifying theme (a theme with at least one goal having a non-empty status
group in the display order) and never otherwise — a theme with no
qualifying content contributes no output at all; one level down, a goal's
header is emitted exactly once when the goal qualifies (whatever the
theme-printed state), and a goal with no qualifying status group renders
nothing at all. -/
theorem C4_lazy_headers (tree : SDict ThemeNode) (include_todo : Bool) :
    ((add_content tree include_todo).countP isThemeHeading =
       (tree.filter (fun t => themeQualifies (statusOrder include_todo) t.2)).length) ∧
    (∀ tk tn, themeQualifies (statusOrder include_todo) tn = false →
       (renderGoals tk tn (statusOrder include_todo) false tn.goals).1 = []) ∧
    (∀ tk tn gk gn tp,
       (renderStatuses tk tn gk gn tp false (statusOrder include_todo)).1.countP isGoalHeading =
         if goalQualifies (statusOrder include_todo) gn then 1 else 0) ∧
    (∀ tk tn gk gn tp gp, goalQualifies (statusOrder include_todo) gn = false →
       (renderStatuses tk tn gk gn tp gp (statusOrder include_todo)).1 = []) := by
  refine ⟨?_, ?_, ?_, ?_⟩
  · unfold add_content
    exact countP_renderThemes (statusOrder include_todo) tree
  · intro tk tn h
    exact (renderGoals_spec tk tn (statusOrder include_todo) tn.goals false).2.2 h
  · intro tk tn gk gn tp
    have h := (renderStatuses_spec tk tn gk gn (statusOrder include_todo) tp false).2.2.2.1
    simpa [goalQualifies] using h
  · intro tk tn gk gn tp gp h
    exact (renderStatuses_spec tk tn gk gn (statusOrder include_todo) tp gp).2.2.2.2 h

def tnC4 : ThemeNode := ⟨"t", "", []⟩

def gnC4 : GoalNode := ⟨"g", "", "", [("Done", [])]⟩

def treeC4 : SDict ThemeNode := [("T", tnC4)]

theorem C4_witness :
    ((add_content treeC4 false).countP isThemeHeading =
       (treeC4.filter (fun t => themeQualifies (statusOrder false) t.2)).length) ∧
    ((renderGoals "T" tnC4 (statusOrder false) false tnC4.goals).1 = []) ∧
    ((renderStatuses "T" tnC4 "G" gnC4 false false (statusOrder false)).1.countP isGoalHeading =
       if goalQualifies (statusOrder false) gnC4 then 1 else 0) ∧
    ((renderStatuses "T" tnC4 "G" gnC4 true true (statusOrder false)).1 = []) :=
  ⟨(C4_lazy_headers treeC4 false).1,
   (C4_lazy_headers treeC4 false).2.1 "T" tnC4 (by decide),
   (C4_lazy_headers treeC4 false).2.2.1 "T" tnC4 "G" gnC4 false,
   (C4_lazy_headers treeC4 false).2.2.2 "T" tnC4 "G" gnC4 true true (by decide)⟩

def blockStartDisp : Block → Option String
  | Block.initiativeRow _ _ _ sd _ _ _ => some sd
  | _ => none

def blockDueDisp : Block → Option String
  | Block.initiativeRow _ _ _ _ dd _ _ => some dd
  | _ => none

theorem initiativeRow_mem_table (st : String) (sm : SDict InitNode) (ik : String)
    (n : InitNode) (h : (ik, n) ∈ sm) :
    add_initiative_to_table ik n ∈ add_status_table st sm := by
  unfold add_status_table
  exact List.mem_cons_of_mem _ (List.mem_map_of_mem _ h)

theorem mem_renderStatuses (tk : String) (tn : ThemeNode) (gk : String) (gn : GoalNode)
    (st : String) (sm : SDict InitNode) (b : Block)
    (hlk : lookupA gn.statuses st = some sm) (hne : sm.isEmpty = false)
    (hb : b ∈ add_status_table st sm) :
    ∀ (order : List String) (tp gp : Bool), st ∈ order →
      b ∈ (renderStatuses tk tn gk gn tp gp order).1 := by
  intro order
  induction order with
  | nil => intro tp gp hmem; simp at hmem
  | cons st₀ rest ih =>
    intro tp gp hmem
    simp only [renderStatuses]
    cases hsm₀ : lookupA gn.statuses st₀ with
    | none =>
      have hne₀ : st₀ ≠ st := by
        intro hh
        rw [hh, hlk] at hsm₀
        exact Option.noConfusion hsm₀
      have hrest : st ∈ rest := by
        rcases List.mem_cons.mp hmem with h | h
        · exact absurd h.symm hne₀
        · exact h
      exact ih tp gp hrest
    | some sm₀ =>
      by_cases he : sm₀.isEmpty
      · have hne₀ : st₀ ≠ st := by
          intro hh
          rw [hh, hlk] at hsm₀
          rw [Option.some_inj.mp hsm₀] at hne
          rw [he] at hne
          exact Bool.noConfusion hne
        have hrest : st ∈ rest := by
          rcases List.mem_cons.mp hmem with h | h
          · exact absurd h.symm hne₀
          · exact h
        simp only [he, ite_true]
        exact ih tp gp hrest
      · have he' : sm₀.isEmpty = false := by simpa using he
        simp only [he', Bool.false_eq_true, ite_false]
        rcases List.mem_cons.mp hmem with hcase | hcase
        · subst hcase
          rw [hlk] at hsm₀
          rw [Option.some_inj.mp hsm₀] at hb
          apply List.mem_append_left
          simp only [add_theme_goal_content]
          exact List.mem_append_right _ hb
        · exact List.mem_append_right _ (ih _ _ hcase)

theorem mem_renderGoals (tk : String) (tn : ThemeNode) (order : List String)
    (gk : String) (gn : GoalNode) (b : Block)
    (hbs : ∀ tp gp, b ∈ (renderStatuses tk tn gk gn tp gp order).1) :
    ∀ (goals : SDict GoalNode) (tp : Bool), (gk, gn) ∈ goals →
      b ∈ (renderGoals tk tn order tp goals).1 := by
  intro goals
  induction goals with
  | nil => intro tp h; simp at h
  | cons p rest ih =>
    intro tp h
    obtain ⟨gk₀, gn₀⟩ := p
    simp only [renderGoals]
    rcases List.mem_cons.mp h with hcase | hcase
    · rw [Prod.mk.injEq] at hcase
      obtain ⟨h1, h2⟩ := hcase
      subst h1
      subst h2
      exact List.mem_append_left _ (hbs tp false)
    · exact List.mem_append_right _ (ih _ hcase)

theorem mem_renderThemes (order : List String) (tk : String) (tn : ThemeNode) (b : Block)
    (hbs : b ∈ (renderGoals tk tn order false tn.goals).1) :
    ∀ ts : SDict ThemeNode, (tk, tn) ∈ ts → b ∈ renderThemes order ts := by
  intro ts
  induction ts with
  | nil => intro h; simp at h
  | cons p rest ih =>
    intro h
    obtain ⟨tk₀, tn₀⟩ := p
    simp only [renderThemes]
    rcases List.mem_cons.mp h with hcase | hcase
    · rw [Prod.mk.injEq] at hcase
      obtain ⟨h1, h2⟩ := hcase
      subst h1
      subst h2
      exact List.mem_append_left _ hbs
    · exact List.mem_append_right _ (ih hcase)

/-- C10: an initiative whose start-date (respectively due-date) field is the
empty string is displayed with the literal `'Unknown'` for that date — the
raw-string pass-through of `format_date` is bypassed for empty fields, in
both scripts' renderers; and a rendered initiative with both dates empty
contributes a table-row block carrying `'Unknown'` for both to the
document. -/
theorem C10_empty_date_unknown :
    (∀ (tree : SDict ThemeNode) (include_todo : Bool) (tk : String) (tn : ThemeNode)
       (gk : String) (gn : GoalNode) (st : String) (sm : SDict InitNode)
       (ik : String) (n : InitNode),
       (tk, tn) ∈ tree → (gk, gn) ∈ tn.goals → st ∈ statusOrder include_todo →
       lookupA gn.statuses st = some sm → (ik, n) ∈ sm →
       n.start_date = "" → n.due_date = "" →
       Block.initiativeRow ik n.summary (format_hebrew_text n.hebrew_summary) "Unknown" "Unknown"
         (format_hebrew_text n.description)
         (n.leads.map (fun p => (format_hebrew_text p.2.summary, p.1))) ∈
         add_content tree include_todo) ∧
    (∀ ik n, n.start_date = "" →
       blockStartDisp (add_initiative_to_table ik n) = some "Unknown") ∧
    (∀ ik n, n.due_date = "" →
       blockDueDisp (add_initiative_to_table ik n) = some "Unknown") ∧
    (∀ ik n b, n.start_date = "" → add_initiative_to_table_V2 ik n = some b →
       blockStartDisp b = some "Unknown") := by
  refine ⟨?_, ?_, ?_, ?_⟩
  · intro tree flag tk tn gk gn st sm ik n htn hgn hst hlk hin h1 h2
    have hb : add_initiative_to_table ik n =
        Block.initiativeRow ik n.summary (format_hebrew_text n.hebrew_summary) "Unknown" "Unknown"
          (format_hebrew_text n.description)
          (n.leads.map (fun p => (format_hebrew_text p.2.summary, p.1))) := by
      simp [add_initiative_to_table, h1, h2]
    have hne : sm.isEmpty = false := by
      cases sm with
      | nil => simp at hin
      | cons a l => rfl
    rw [← hb]
    unfold add_content
    exact mem_renderThemes (statusOrder flag) tk tn _
      (mem_renderGoals tk tn _ gk gn _
        (fun tp gp => mem_renderStatuses tk tn gk gn st sm _ hlk hne
          (initiativeRow_mem_table st sm ik n hin) (statusOrder flag) tp gp hst)
        tn.goals false hgn)
      tree htn
  · intro ik n h
    simp [add_initiative_to_table, blockStartDisp, h]
  · intro ik n h
    simp [add_initiative_to_table, blockDueDisp, h]
  · intro ik n b h1 hb
    unfold add_initiative_to_table_V2 at hb
    rw [show dateFieldV2 n.start_date = some "Unknown" from by simp [dateFieldV2, h1]] at hb
    cases hd : dateFieldV2 n.due_date with
    | none => rw [hd] at hb; simp at hb
    | some dd =>
      rw [hd] at hb
      simp only [Option.some_inj] at hb
      rw [← hb]
      rfl

def nW : InitNode := ⟨"i", "", "", "", "", []⟩

def smW : SDict InitNode := [("I", nW)]

def gnW : GoalNode := ⟨"g", "", "", [("Done", smW)]⟩

def tnW : ThemeNode := ⟨"t", "", [("G", gnW)]⟩

theorem C10_witness :
    Block.initiativeRow "I" "i" (format_hebrew_text "") "Unknown" "Unknown"
      (format_hebrew_text "") [] ∈ add_content [("T", tnW)] false := by
  have h := C10_empty_date_unknown.1 [("T", tnW)] false "T" tnW "G" gnW "Done" smW "I" nW
    (by simp) (by simp [tnW]) (by decide) (by decide) (by simp [smW]) rfl rfl
  exact h

theorem pySplitAux_nows : ∀ (cs : List Char), (∀ c ∈ cs, c.isWhitespace = false) →
    ∀ acc : List Char, pySplitAux cs acc =
      if acc.reverse ++ cs = [] then [] else [acc.reverse ++ cs] := by
  intro cs
  induction cs with
  | nil =>
    intro _ acc
    cases acc <;> simp [pySplitAux]
  | cons c rest ih =>
    intro hws acc
    have hc : c.isWhitespace = false := hws c (by simp)
    simp only [pySplitAux, hc, Bool.false_eq_true, ite_false]
    rw [ih (fun x hx => hws x (by simp [hx])) (c :: acc)]
    simp [List.reverse_cons, List.append_assoc]

theorem stringMk_toList (s : String) : String.mk s.toList = s := rfl

theorem pySplit_single (s : String) (hne : s ≠ "")
    (hws : s.toList.all (fun c => !c.isWhitespace) = true) : pySplit s = [s] := by
  unfold pySplit
  have hcs : ∀ c ∈ s.toList, c.isWhitespace = false := by
    intro c hc
    simpa using List.all_eq_true.mp hws c hc
  rw [pySplitAux_nows s.toList hcs []]
  simp only [List.reverse_nil, List.nil_append]
  have htl : s.toList ≠ [] := by
    intro h
    apply hne
    cases s with
    | mk data =>
      simp only [String.toList] at h
      rw [show String.mk data = String.mk (String.mk data).data from rfl]
      rw [show (String.mk data).data = data from rfl, h]
  rw [if_neg htl]
  simp only [List.map_cons, List.map_nil]
  rw [stringMk_toList]

/-- C9 (amended): in GenRoadmapReport.py a non-empty date field renders as
`format_date(raw)`, which is the raw string passed through completely
unchanged whenever the fixed-format (`%Y-%m-%d %H:%M:%S`) parse fails, and
no error is raised; in GenRoadmapReport_V2.py the rendered date is
`raw.split()[0]`, which equals the raw string only when the raw string
contains no whitespace (an unparseable multi-token date is truncated, and
an all-whitespace date raises `IndexError`). -/
theorem C9_date_display (raw : String) (hne : raw ≠ "") :
    (∀ ik n, n.start_date = raw →
       blockStartDisp (add_initiative_to_table ik n) = some (format_date raw)) ∧
    (parseTimestamp raw = none → format_date raw = raw) ∧
    (raw.toList.all (fun c => !c.isWhitespace) = true → dateFieldV2 raw = some raw) := by
  refine ⟨?_, ?_, ?_⟩
  · intro ik n h
    simp [add_initiative_to_table, blockStartDisp, h, hne]
  · intro h
    simp [format_date, h]
  · intro hws
    unfold dateFieldV2
    rw [if_neg hne, pySplit_single raw hne hws]
    rfl

def nC9a : InitNode := ⟨"s", "", "", "N/A 1", "N/A 1", []⟩

def nC9b : InitNode := ⟨"s", "", "", " ", " ", []⟩

/-- C9 counterexample to the claim as stated: the start date `"N/A 1"` does
not parse, yet GenRoadmapReport_V2.py renders it as `"N/A"`, not as the
original string unchanged; and the non-empty all-whitespace date `" "` makes
its renderer raise (`split()[0]` on an empty list) instead of raising no
error. -/
theorem C9_counterexample :
    parseTimestamp "N/A 1" = none ∧
    (add_initiative_to_table_V2 "I" nC9a).bind blockStartDisp = some "N/A" ∧
    "N/A" ≠ "N/A 1" ∧
    add_initiative_to_table_V2 "I" nC9b = none := by
  refine ⟨by decide, by decide, by decide, by decide⟩

theorem C9_witness :
    (∀ ik n, n.start_date = "N/A" →
       blockStartDisp (add_initiative_to_table ik n) = some (format_date "N/A")) ∧
    format_date "N/A" = "N/A" ∧
    dateFieldV2 "N/A" = some "N/A" := by
  obtain ⟨h1, h2, h3⟩ := C9_date_display "N/A" (by decide)
  exact ⟨h1, h2 (by decide), h3 (by decide)⟩
